import Mathlib

/-!
Verification of the reminder/trigger normalization core and the optimistic
concurrency update protocol of the api-sabre-nx-2 gateway.

The definitions below are a shallow embedding of the relevant source files:

* `src/app/src/reminders/utils.py` — ISO-8601 duration codec, trigger
  decoding (`build_reminder_payload`) and encoding
  (`reminder_to_ical_trigger`);
* `src/app/src/common/timezones.py` — timezone helpers;
* `src/app/src/common/audit.py` — audit entry recording;
* the optimistic update/delete coordinator of §4.4 of the specification,
  whose implementation is not part of the source snapshot (only its test
  file `app/tests/test_optimistic_locking.py`, the ETag-capable DAV clients
  in `dav_clients.py` and the audit recorder are present); that part is
  modelled from the spec and marked as such.

Python `timedelta` values produced and consumed by this code are always a
whole number of seconds, so durations are embedded as `Int` (total seconds).
-/

deriving instance DecidableEq for Except

namespace SabreNx

/-- ASCII decimal digit test, the embedding of `\d` as used by
`ISO_DURATION_PATTERN` on the ASCII inputs this development considers. -/
def isDig (c : Char) : Bool := 48 ≤ c.toNat && c.toNat ≤ 57

/-- Numeric value of an ASCII digit character. -/
def digVal (c : Char) : Nat := c.toNat - 48

/-- Whitespace as stripped by Python `str.strip()` (ASCII fragment). -/
def isPyWs (c : Char) : Bool := c.toNat = 32 || (9 ≤ c.toNat && c.toNat ≤ 13)

/-- Embedding of `duration.strip()`. -/
def stripWs (cs : List Char) : List Char :=
  ((cs.dropWhile isPyWs).reverse.dropWhile isPyWs).reverse

/-- Read a maximal run of decimal digits, accumulating their value; returns
the value together with the unread remainder.  This is how a greedy `\d+`
behaves inside the anchored `ISO_DURATION_PATTERN`. -/
def readNatAux : List Char → Nat → Nat × List Char
  | [], acc => (acc, [])
  | c :: cs, acc =>
    if isDig c then readNatAux cs (acc * 10 + digVal c) else (acc, c :: cs)

/-- Read one `\d+X` component: a nonempty digit run followed by a unit
letter.  Returns the numeric value, the letter and the remainder; `none`
when the input does not start with a digit or ends inside the digit run. -/
def readComp (cs : List Char) : Option (Nat × Char × List Char) :=
  match cs with
  | [] => none
  | c :: _ =>
    if isDig c then
      match readNatAux cs 0 with
      | (n, l :: r) => some (n, l, r)
      | (_, []) => none
    else none

/-- Match the `(?:(\d+)H)?(?:(\d+)M)?(?:(\d+)S)?` tail of
`ISO_DURATION_PATTERN` (case-insensitively, to the end of input), returning
the number of seconds it denotes. -/
def parseHMS (cs : List Char) : Option Nat :=
  if cs = [] then some 0
  else
    match readComp cs with
    | none => none
    | some (n1, c1, r1) =>
      if c1 = 'H' ∨ c1 = 'h' then
        if r1 = [] then some (n1 * 3600)
        else
          match readComp r1 with
          | none => none
          | some (n2, c2, r2) =>
            if c2 = 'M' ∨ c2 = 'm' then
              if r2 = [] then some (n1 * 3600 + n2 * 60)
              else
                match readComp r2 with
                | none => none
                | some (n3, c3, r3) =>
                  if (c3 = 'S' ∨ c3 = 's') ∧ r3 = [] then
                    some (n1 * 3600 + n2 * 60 + n3)
                  else none
            else if (c2 = 'S' ∨ c2 = 's') ∧ r2 = [] then
              some (n1 * 3600 + n2)
            else none
      else if c1 = 'M' ∨ c1 = 'm' then
        if r1 = [] then some (n1 * 60)
        else
          match readComp r1 with
          | none => none
          | some (n2, c2, r2) =>
            if (c2 = 'S' ∨ c2 = 's') ∧ r2 = [] then some (n1 * 60 + n2)
            else none
      else if (c1 = 'S' ∨ c1 = 's') ∧ r1 = [] then some n1
      else none

/-- Match the optional `(?:T...)?` group to the end of input. -/
def parseTimePart (cs : List Char) : Option Nat :=
  match cs with
  | [] => some 0
  | c :: rest => if c = 'T' ∨ c = 't' then parseHMS rest else none

/-- Match the optional `(?:(\d+)D)?` group, returning the day count (`0`
when the group is absent) and the remainder. -/
def parseDaysPart (cs : List Char) : Option (Nat × List Char) :=
  match cs with
  | [] => some (0, [])
  | c :: _ =>
    if isDig c then
      match readComp cs with
      | none => none
      | some (n, l, r) => if l = 'D' ∨ l = 'd' then some (n, r) else none
    else some (0, cs)

/-- Match everything after the leading `P`, returning total seconds. -/
def parseBody (cs : List Char) : Option Nat :=
  match parseDaysPart cs with
  | none => none
  | some (d, r) =>
    match parseTimePart r with
    | none => none
    | some t => some (d * 86400 + t)

/-- Match `P` (case-insensitively) followed by the duration body. -/
def parseP : List Char → Option Nat
  | [] => none
  | c :: rest => if c = 'P' ∨ c = 'p' then parseBody rest else none

/-- Embedding of `iso8601_to_timedelta` from `src/app/src/reminders/utils.py`:
strip the input, full-match it against `ISO_DURATION_PATTERN`
(`^(-)?P(?:(\d+)D)?(?:T(?:(\d+)H)?(?:(\d+)M)?(?:(\d+)S)?)?$`, IGNORECASE)
and combine the captured components into a signed number of seconds;
`none` models the `return None` paths (empty input or no match). -/
def iso8601_to_timedelta (s : String) : Option Int :=
  match s.data with
  | [] => none
  | c :: cs =>
    match stripWs (c :: cs) with
    | [] => none
    | d :: rest =>
      if d = '-' then (parseP rest).map (fun n => -(n : Int))
      else (parseP (d :: rest)).map (fun n => (n : Int))

/-- Character of a decimal digit value. -/
def digitToChar (d : Nat) : Char := Char.ofNat (48 + d)

/-- Fueled loop emitting the decimal digits of `n` in front of `acc`;
`fuel` bounds the number of digits produced. -/
def natToDecAux : Nat → Nat → List Char → List Char
  | 0, _, acc => acc
  | fuel + 1, n, acc =>
    if n = 0 then acc else natToDecAux fuel (n / 10) (digitToChar (n % 10) :: acc)

/-- Decimal rendering of a natural number, as Python `str` produces inside
the f-strings of `timedelta_to_iso8601`. -/
def natToDec (n : Nat) : List Char :=
  if n = 0 then ['0'] else natToDecAux (n + 1) n []

/-- The `time_parts` accumulator of `timedelta_to_iso8601`: hour, minute
and second components, each omitted when zero. -/
def hmsParts (h m s : Nat) : List Char :=
  (if h = 0 then [] else natToDec h ++ ['H'])
    ++ ((if m = 0 then [] else natToDec m ++ ['M'])
    ++ (if s = 0 then [] else natToDec s ++ ['S']))

/-- The part of `timedelta_to_iso8601`'s output after the sign and the
leading `P`: date part and (conditional) time part over the divmod chain of
the source. -/
def fmtBody (n : Int) : List Char :=
  let t := n.natAbs
  let days := t / 86400
  let datePart := if days = 0 then [] else natToDec days ++ ['D']
  let timeParts := hmsParts (t % 86400 / 3600) (t % 86400 % 3600 / 60) (t % 86400 % 3600 % 60)
  let timeParts2 := if datePart = [] ∧ timeParts = [] then ['0', 'S'] else timeParts
  let timePart := if timeParts2 = [] then [] else 'T' :: timeParts2
  datePart ++ timePart

/-- Character list produced by `timedelta_to_iso8601` for a duration of `n`
seconds, mirroring the divmod chain and conditional parts of the source. -/
def fmtChars (n : Int) : List Char :=
  (if n < 0 then ['-'] else []) ++ 'P' :: fmtBody n

/-- Embedding of `timedelta_to_iso8601` from `src/app/src/reminders/utils.py`.
`int(delta.total_seconds())` is exact for the whole-second durations this
code handles (the integral magnitude is below `2 ^ 53`), so it is the
identity on the embedded `Int` value. -/
def timedelta_to_iso8601 (n : Int) : String := String.mk (fmtChars n)

/-- Timezone information attached to a datetime: either an IANA zone (a
`zoneinfo.ZoneInfo`, identified by its `key`) or a fixed UTC offset in
minutes (a `datetime.timezone`, as produced by `fromisoformat` on inputs
carrying a numeric offset). -/
inductive Tz where
  | named (key : String)
  | fixed (minutes : Int)
deriving DecidableEq

/-- Embedding of Python `datetime.datetime`: wall-clock fields plus the
optional `tzinfo`.  `micro` is the microsecond field. -/
structure PyDateTime where
  year : Int
  month : Int
  day : Int
  hour : Int
  minute : Int
  second : Int
  micro : Int
  tz : Option Tz
deriving DecidableEq

/-- Days since 1970-01-01 of a proleptic-Gregorian civil date (the standard
days-from-civil algorithm, as used by `datetime`'s ordinal arithmetic). -/
def daysFromCivil (y m d : Int) : Int :=
  let y2 := if m ≤ 2 then y - 1 else y
  let era := (if 0 ≤ y2 then y2 else y2 - 399) / 400
  let yoe := y2 - era * 400
  let mp := (m + 9) % 12
  let doy := (153 * mp + 2) / 5 + d - 1
  let doe := yoe * 365 + yoe / 4 - yoe / 100 + doy
  era * 146097 + doe - 719468

/-- Inverse of `daysFromCivil`: civil date of a day number. -/
def civilFromDays (z0 : Int) : Int × Int × Int :=
  let z := z0 + 719468
  let era := (if 0 ≤ z then z else z - 146096) / 146097
  let doe := z - era * 146097
  let yoe := (doe - doe / 1460 + doe / 36524 - doe / 146096) / 365
  let y := yoe + era * 400
  let doy := doe - (365 * yoe + yoe / 4 - yoe / 100)
  let mp := (5 * doy + 2) / 153
  let d := doy - (153 * mp + 2) / 5 + 1
  let m := mp + (if mp < 10 then 3 else -9)
  (if m ≤ 2 then y + 1 else y, m, d)

/-- Python `datetime + timedelta`: wall-clock arithmetic on the fields with
calendar carry, leaving `tzinfo` (and here also the microsecond field, the
added deltas being whole seconds) untouched. -/
def addSeconds (dt : PyDateTime) (delta : Int) : PyDateTime :=
  let days := daysFromCivil dt.year dt.month dt.day
  let total := days * 86400 + dt.hour * 3600 + dt.minute * 60 + dt.second + delta
  let d2 := Int.fdiv total 86400
  let rem := total - d2 * 86400
  match civilFromDays d2 with
  | (y, m, d) =>
    ⟨y, m, d, rem / 3600, rem % 3600 / 60, rem % 60, dt.micro, dt.tz⟩

/-- Two-digit zero-padded decimal. -/
def pad2 (n : Nat) : List Char := if n < 10 then '0' :: natToDec n else natToDec n

/-- Zero-pad a decimal rendering to `k` characters. -/
def padTo (k : Nat) (n : Nat) : List Char :=
  List.replicate (k - (natToDec n).length) '0' ++ natToDec n

/-- Render a UTC offset in minutes in the `±HH:MM` form used by
`datetime.isoformat`. -/
def renderOffset (mins : Int) : List Char :=
  (if mins < 0 then '-' else '+')
    :: (pad2 (mins.natAbs / 60) ++ ':' :: pad2 (mins.natAbs % 60))

/-- Models the set of zone identifiers resolvable through
`zoneinfo.ZoneInfo` for the zones exercised in this development; any other
identifier raises `ZoneInfoNotFoundError` in the source environment. -/
def zoneResolvable (z : String) : Bool := z = "Europe/Paris" || z = "UTC"

/-- Models the fragment of the IANA timezone database consulted through
`zoneinfo` that this development needs: Europe/Paris observes CEST (+02:00)
throughout April–September (which covers the 2025-04-21 scenario of the
specification) and CET (+01:00) in the deep-winter months; UTC is +00:00.
Unknown zones are given offset 0; they are never attached by
`apply_timezone`, which only resolves zones in `zoneResolvable`. -/
def zoneOffsetMinutes (z : String) (dt : PyDateTime) : Int :=
  if z = "Europe/Paris" then (if 4 ≤ dt.month ∧ dt.month ≤ 9 then 120 else 60)
  else 0

/-- `utcoffset()` of an attached `tzinfo`, in minutes. -/
def tzUtcOffsetMinutes (t : Tz) (dt : PyDateTime) : Int :=
  match t with
  | .named z => zoneOffsetMinutes z dt
  | .fixed m => m

/-- The string `timezone_from_datetime` extracts from a `tzinfo`: the `key`
of a `ZoneInfo`, else `tzname()` of a fixed-offset `datetime.timezone`. -/
def tzNameStr (t : Tz) (_dt : PyDateTime) : String :=
  match t with
  | .named z => z
  | .fixed m => if m = 0 then "UTC" else String.mk ('U' :: 'T' :: 'C' :: renderOffset m)

/-- Embedding of `timezone_from_datetime` from
`src/app/src/common/timezones.py`: `None` for a naive datetime, otherwise
the canonical identifier of its `tzinfo`. -/
def timezone_from_datetime (dt : PyDateTime) : Option String :=
  match dt.tz with
  | none => none
  | some t => some (tzNameStr t dt)

/-- Embedding of `datetime.isoformat()`: `YYYY-MM-DDTHH:MM:SS`, with the
microsecond field appended when nonzero and the UTC offset appended for an
aware value. -/
def isoformatChars (dt : PyDateTime) : List Char :=
  padTo 4 dt.year.toNat ++ '-' :: pad2 dt.month.toNat ++ '-' :: pad2 dt.day.toNat
    ++ 'T' :: pad2 dt.hour.toNat ++ ':' :: pad2 dt.minute.toNat ++ ':' :: pad2 dt.second.toNat
    ++ (if dt.micro = 0 then [] else '.' :: padTo 6 dt.micro.toNat)
    ++ (match dt.tz with
        | none => []
        | some t => renderOffset (tzUtcOffsetMinutes t dt))

/-- String form of `datetime.isoformat()`. -/
def isoformat (dt : PyDateTime) : String := String.mk (isoformatChars dt)

/-- Python `a or b` on optional strings: `a` unless it is falsy (`None` or
the empty string), else `b`. -/
def pyOr (a b : Option String) : Option String :=
  match a with
  | none => b
  | some s => if s = "" then b else a

/-- Core of `apply_timezone` from `src/app/src/common/timezones.py` for a
non-`None` datetime: return the value unchanged when it is already aware,
when no zone (or an empty one) is given, or when the zone does not resolve;
otherwise attach the resolved zone via `replace(tzinfo=ZoneInfo(zone))`. -/
def applyTz1 (dt : PyDateTime) (timezone : Option String) : PyDateTime :=
  if dt.tz.isSome then dt
  else
    match timezone with
    | none => dt
    | some z =>
      if z = "" then dt
      else if zoneResolvable z then { dt with tz := some (.named z) } else dt

/-- Embedding of `apply_timezone` from `src/app/src/common/timezones.py`,
including its `None` passthrough. -/
def apply_timezone (value : Option PyDateTime) (timezone : Option String) :
    Option PyDateTime :=
  value.map (fun dt => applyTz1 dt timezone)

/-- Read exactly `k` decimal digits, accumulating their value. -/
def readFixed : Nat → List Char → Nat → Option (Nat × List Char)
  | 0, cs, acc => some (acc, cs)
  | _ + 1, [], _ => none
  | k + 1, c :: cs, acc =>
    if isDig c then readFixed k cs (acc * 10 + digVal c) else none

/-- Consume one expected character. -/
def expectCh (x : Char) : List Char → Option (List Char)
  | c :: r => if c = x then some r else none
  | [] => none

/-- Trailing-offset part of an ISO timestamp: empty (naive), `Z`, or
`±HH:MM`.  Models the offset handling of `datetime.fromisoformat`. -/
def parseIsoOffset (cs : List Char) : Option (Option Tz) :=
  match cs with
  | [] => some none
  | ['Z'] => some (some (.fixed 0))
  | ['z'] => some (some (.fixed 0))
  | c :: rest =>
    if c = '+' ∨ c = '-' then
      match readFixed 2 rest 0 with
      | none => none
      | some (hh, rest2) =>
        match rest2 with
        | ':' :: rest3 =>
          match readFixed 2 rest3 0 with
          | none => none
          | some (mm, rest4) =>
            if rest4 = [] ∧ hh < 24 ∧ mm < 60 then
              some (some (.fixed ((if c = '-' then -1 else 1) * (hh * 60 + mm))))
            else none
        | _ => none
    else none

/-- Time-of-day part `HH:MM[:SS[.ffffff]][offset]` of an ISO timestamp,
returning hour, minute, second, microsecond and offset. -/
def parseIsoTime (cs : List Char) : Option (Nat × Nat × Nat × Nat × Option Tz) :=
  (readFixed 2 cs 0).bind fun hc =>
  (expectCh ':' hc.2).bind fun c1 =>
  (readFixed 2 c1 0).bind fun mc =>
  if hc.1 < 24 ∧ mc.1 < 60 then
    match mc.2 with
    | ':' :: rest =>
      (readFixed 2 rest 0).bind fun sc =>
      if sc.1 < 60 then
        match sc.2 with
        | '.' :: mrest =>
          match readNatAux mrest 0 with
          | (v, after) =>
            let k := mrest.length - after.length
            if 1 ≤ k ∧ k ≤ 6 then
              (parseIsoOffset after).map fun tz =>
                (hc.1, mc.1, sc.1, v * 10 ^ (6 - k), tz)
            else none
        | other => (parseIsoOffset other).map fun tz => (hc.1, mc.1, sc.1, 0, tz)
      else none
    | other => (parseIsoOffset other).map fun tz => (hc.1, mc.1, 0, 0, tz)
  else none

/-- Models `datetime.fromisoformat` for the `YYYY-MM-DD[{T| }HH:MM[:SS
[.ffffff]][±HH:MM|Z]]` forms this system exchanges; `none` stands for the
`ValueError` raised on any other input. -/
def pyFromIso (s : String) : Option PyDateTime :=
  (readFixed 4 s.data 0).bind fun yc =>
  (expectCh '-' yc.2).bind fun c1 =>
  (readFixed 2 c1 0).bind fun moc =>
  (expectCh '-' moc.2).bind fun c2 =>
  (readFixed 2 c2 0).bind fun dc =>
  if 1 ≤ moc.1 ∧ moc.1 ≤ 12 ∧ 1 ≤ dc.1 ∧ dc.1 ≤ 31 then
    match dc.2 with
    | [] => some ⟨yc.1, moc.1, dc.1, 0, 0, 0, 0, none⟩
    | sep :: rest =>
      if sep = 'T' ∨ sep = ' ' then
        (parseIsoTime rest).map fun t =>
          ⟨yc.1, moc.1, dc.1, t.1, t.2.1, t.2.2.1, t.2.2.2.1, t.2.2.2.2⟩
      else none
  else none

/-- Characters of `datetime.isoformat(sep)`; `isoformat` uses `'T'` and
`str(datetime)` uses `' '`. -/
def isoformatSep (sep : Char) (dt : PyDateTime) : List Char :=
  padTo 4 dt.year.toNat ++ '-' :: pad2 dt.month.toNat ++ '-' :: pad2 dt.day.toNat
    ++ sep :: pad2 dt.hour.toNat ++ ':' :: pad2 dt.minute.toNat ++ ':' :: pad2 dt.second.toNat
    ++ (if dt.micro = 0 then [] else '.' :: padTo 6 dt.micro.toNat)
    ++ (match dt.tz with
        | none => []
        | some t => renderOffset (tzUtcOffsetMinutes t dt))

/-- Embedding of `str(datetime)`. -/
def pyStrDatetime (dt : PyDateTime) : String := String.mk (isoformatSep ' ' dt)

/-- Embedding of `str(date)`. -/
def pyStrDate (y m d : Int) : String :=
  String.mk (padTo 4 y.toNat ++ '-' :: pad2 m.toNat ++ '-' :: pad2 d.toNat)

/-- Embedding of `str(timedelta)` for whole-second values:
`[[-]D day[s], ]H:MM:SS` over the normalized (floor) day/second split. -/
def pyStrTimedelta (n : Int) : String :=
  let days := Int.fdiv n 86400
  let rem := (n - days * 86400).toNat
  let dayPart :=
    if days = 0 then []
    else
      (if days < 0 then '-' :: natToDec days.natAbs else natToDec days.natAbs)
        ++ (if days = 1 ∨ days = -1 then " day, ".data else " days, ".data)
  String.mk
    (dayPart ++ natToDec (rem / 3600) ++ ':' :: pad2 (rem % 3600 / 60)
      ++ ':' :: pad2 (rem % 60))

/-- The dynamic trigger value reaching `build_reminder_payload` (the result
of `decode_trigger_value`): `None`, a native `datetime`/`date`/`timedelta`/
`str`, or an icalendar property object whose `dt` attribute holds the
decoded payload (`vProp`). -/
inductive TriggerValue where
  | vNone
  | vDatetime (dt : PyDateTime)
  | vDate (y m d : Int)
  | vDelta (seconds : Int)
  | vStr (s : String)
  | vProp (inner : TriggerValue)
deriving DecidableEq

/-- Models `to_ical()` of an icalendar property for the payload held in its
`dt` attribute (basic-format timestamp/date, duration string, raw string);
`none` stands for the exception raised when there is nothing to encode. -/
def icalEncode : TriggerValue → Option String
  | .vDatetime dt =>
    some (String.mk
      (padTo 4 dt.year.toNat ++ pad2 dt.month.toNat ++ pad2 dt.day.toNat
        ++ 'T' :: pad2 dt.hour.toNat ++ pad2 dt.minute.toNat ++ pad2 dt.second.toNat
        ++ (match dt.tz with | some (.fixed 0) => ['Z'] | _ => [])))
  | .vDate y m d => some (String.mk (padTo 4 y.toNat ++ pad2 m.toNat ++ pad2 d.toNat))
  | .vDelta n => some (timedelta_to_iso8601 n)
  | .vStr s => some s
  | .vNone => none
  | .vProp i => icalEncode i

/-- Embedding of `stringify_trigger` from `src/app/src/reminders/utils.py`:
`None` yields `none`; strings pass through; a property object defers to its
`dt` payload when present, else `str(value)` of the property object itself;
native values fall through the failing `to_ical()` attempt to `str(value)`. -/
def stringify_trigger : TriggerValue → Option String
  | .vNone => none
  | .vStr s => some s
  | .vProp .vNone => some "vDDDTypes(None)"
  | .vProp i => stringify_trigger i
  | .vDatetime dt => some (pyStrDatetime dt)
  | .vDate y m d => some (pyStrDate y m d)
  | .vDelta n => some (pyStrTimedelta n)

/-- Embedding of `coerce_to_datetime` from `src/app/src/reminders/utils.py`:
datetimes pass through, dates are combined with midnight, property objects
recurse into their `dt` payload, strings go through `fromisoformat`, and
everything else ends in the failing `to_ical()` attempt, yielding `None`. -/
def coerce_to_datetime : TriggerValue → Option PyDateTime
  | .vDatetime dt => some dt
  | .vDate y m d => some ⟨y, m, d, 0, 0, 0, 0, none⟩
  | .vProp i => coerce_to_datetime i
  | .vStr s => pyFromIso s
  | .vDelta _ => none
  | .vNone => none

/-- Embedding of `coerce_to_timedelta` from `src/app/src/reminders/utils.py`:
timedeltas (raw, or as the `dt` payload of a property object) pass through,
strings are parsed as ISO durations, property objects otherwise have their
`to_ical()` text parsed as an ISO duration, and native non-duration values
yield `None`. -/
def coerce_to_timedelta : TriggerValue → Option Int
  | .vDelta n => some n
  | .vProp (.vDelta n) => some n
  | .vStr s => iso8601_to_timedelta s
  | .vProp i => (icalEncode i).bind iso8601_to_timedelta
  | _ => none

/-- Embedding of `get_trigger_relation` from `src/app/src/reminders/utils.py`
over the optional `RELATED` parameter value of the trigger property. -/
def get_trigger_relation (related : Option String) : String :=
  match related with
  | some r => if r = "" then "START" else r.toUpper
  | none => "START"

/-- The reminder dictionary produced by `build_reminder_payload`. -/
structure ReminderPayload where
  mode : String
  fire_time : Option String
  offset : Option String
  relation : Option String
  timezone : Option String
deriving DecidableEq

/-- Embedding of `build_reminder_payload` from
`src/app/src/reminders/utils.py`; `Except.error` models the raised
`ValueError("Reminder trigger is missing or unreadable")`.  The `or`
between `trigger_timezone` and `timezone_from_datetime` is Python's falsy
`or` (`pyOr`), and `apply_timezone` on the non-`None` datetimes of the
first two branches is `applyTz1`. -/
def build_reminder_payload (trigger_value : TriggerValue) (related : String)
    (event_start event_end : Option PyDateTime)
    (trigger_timezone event_start_timezone event_end_timezone : Option String) :
    Except String ReminderPayload :=
  let relation := if related = "START" ∨ related = "END" then related else "START"
  let reference := if relation ≠ "END" then event_start else event_end
  match coerce_to_datetime trigger_value with
  | some absolute_dt =>
    let timezone := pyOr trigger_timezone (timezone_from_datetime absolute_dt)
    let dt2 := applyTz1 absolute_dt timezone
    .ok ⟨"absolute", some (isoformat dt2), none, none, timezone⟩
  | none =>
    match coerce_to_timedelta trigger_value with
    | some delta =>
      let timezone := if relation ≠ "END" then event_start_timezone else event_end_timezone
      let aware_reference := reference.map (fun r => applyTz1 r timezone)
      let fire_time := aware_reference.map (fun r => isoformat (addSeconds r delta))
      .ok ⟨"relative", fire_time, some (timedelta_to_iso8601 delta), some relation, timezone⟩
    | none =>
      match stringify_trigger trigger_value with
      | none => .error "Reminder trigger is missing or unreadable"
      | some raw => .ok ⟨"absolute", some raw, none, none, trigger_timezone⟩

/-- Modelled from the spec: the structured `Reminder` schema of §3 of the
specification.  The `src/models/event.py` revision defining this schema is
not part of the source snapshot (the snapshot's `models` tree predates it);
`reminders/utils.py` references it only under `TYPE_CHECKING`. -/
structure Reminder where
  kind : String
  mode : String
  offset : Option String
  relation : Option String
  fire_time : Option String
  timezone : Option String
  description : Option String
deriving DecidableEq

/-- Embedding of `reminder_to_ical_trigger` from
`src/app/src/reminders/utils.py`: a relative reminder yields its parsed
offset as a duration trigger with a `START`/`END` relation (defaulting to
`START`), an absolute reminder yields its zoned `fire_time` timestamp with
the resolved timezone.  `Except.error` models the raised `ValueError`s
(including the `fromisoformat` failure the source lets propagate). -/
def reminder_to_ical_trigger (r : Reminder) :
    Except String (TriggerValue × Option String × Option String) :=
  if r.mode = "relative" then
    match r.offset with
    | none => .error "Relative reminders require offset to be set"
    | some o =>
      if o = "" then .error "Relative reminders require offset to be set"
      else
        match iso8601_to_timedelta o with
        | none => .error (String.append "Invalid ISO 8601 duration for reminder offset: " o)
        | some delta =>
          let related :=
            match r.relation with
            | some rel => if rel = "START" ∨ rel = "END" then rel else "START"
            | none => "START"
          .ok (.vDelta delta, some related, none)
  else
    match r.fire_time with
    | none => .error "Absolute reminders require fire_time to be set"
    | some ft =>
      if ft = "" then .error "Absolute reminders require fire_time to be set"
      else
        match pyFromIso ft with
        | none => .error (String.append "Invalid isoformat string: " ft)
        | some dt0 =>
          let timezone := pyOr r.timezone (timezone_from_datetime dt0)
          let trigger_dt := applyTz1 dt0 timezone
          let timezone2 :=
            if trigger_dt.tz.isSome ∧ timezone = none then
              timezone_from_datetime trigger_dt
            else timezone
          .ok (.vDatetime trigger_dt, none, timezone2)

/-- A remote resource representation together with its server ETag, as
fetched by `DavClient.fetch` (§6 of the specification). -/
structure ResourceState (π : Type) where
  payload : π
  etag : String
deriving DecidableEq

/-- One audit line, as written by `record_change`
(`src/app/src/common/audit.py`): resource type, UID, action, prior
snapshot, new snapshot.  The conflict entries of the locking tests carry
the authoritative server state (with its ETag) in `before` and the
rejected client payload in `after`. -/
structure AuditEntry (π : Type) where
  resource : String
  uid : String
  action : String
  before : Option (ResourceState π)
  after : Option π
deriving DecidableEq

/-- Embedding of `record_change` from `src/app/src/common/audit.py`: append
exactly one structured entry to the audit log. -/
def record_change {π : Type} (log : List (AuditEntry π)) (resource uid action : String)
    (before : Option (ResourceState π)) (after : Option π) : List (AuditEntry π) :=
  log ++ [⟨resource, uid, action, before, after⟩]

/-- Outcome of an optimistic update call: success with the new state, a
terminal NotFound, or PreconditionFailed (HTTP 412) carrying the
authoritative current server state. -/
inductive UpdateOutcome (π : Type) where
  | ok (r : ResourceState π)
  | notFound
  | preconditionFailed (current : ResourceState π)
deriving DecidableEq

/-- Outcome of an optimistic delete call: deleted, idempotent
"was not present", or PreconditionFailed carrying the current state. -/
inductive DeleteOutcome (π : Type) where
  | deleted
  | notPresent
  | preconditionFailed (current : ResourceState π)
deriving DecidableEq

/-- Modelled from the spec: the optimistic update coordinator of §4.4
(`FETCHING → COMPARING → {WRITING | REJECTED} → DONE`) for one resource
kind, whose implementation (the ETag-aware revision of `update_contact` /
`update_event`) is absent from the source snapshot — only its test file
`app/tests/test_optimistic_locking.py`, the ETag-capable DAV clients and
the audit recorder are present.  Inputs are the fetched server state, the
caller's precondition token and payload, and the ETag the server would
assign on a successful conditional write; outputs are the call outcome,
the resulting server state and the audit entries recorded by the call.
Per §3's invariant every call records exactly one entry; the spec names no
distinct action for the NotFound outcome, so the operation's own action is
recorded there with `before = None`. -/
def update_call {π : Type} (resource uid : String) (server : Option (ResourceState π))
    (client_etag : Option String) (newPayload : π) (newEtag : String) :
    UpdateOutcome π × Option (ResourceState π) × List (AuditEntry π) :=
  match server with
  | none => (.notFound, none, record_change [] resource uid "update" none (some newPayload))
  | some cur =>
    match client_etag with
    | some e =>
      if e = cur.etag then
        (.ok ⟨newPayload, newEtag⟩, some ⟨newPayload, newEtag⟩,
          record_change [] resource uid "update" (some cur) (some newPayload))
      else
        (.preconditionFailed cur, some cur,
          record_change [] resource uid "conflict" (some cur) (some newPayload))
    | none =>
      (.ok ⟨newPayload, newEtag⟩, some ⟨newPayload, newEtag⟩,
        record_change [] resource uid "update" (some cur) (some newPayload))

/-- Modelled from the spec: the optimistic delete coordinator of §4.4,
absent from the source snapshot like `update_call`.  A missing resource is
an idempotent no-op success ("was not present"); a stale precondition is
rejected without mutating the server. -/
def delete_call {π : Type} (resource uid : String) (server : Option (ResourceState π))
    (client_etag : Option String) :
    DeleteOutcome π × Option (ResourceState π) × List (AuditEntry π) :=
  match server with
  | none => (.notPresent, none, record_change [] resource uid "delete" none none)
  | some cur =>
    match client_etag with
    | some e =>
      if e = cur.etag then
        (.deleted, none, record_change [] resource uid "delete" (some cur) none)
      else
        (.preconditionFailed cur, some cur,
          record_change [] resource uid "conflict" (some cur) none)
    | none => (.deleted, none, record_change [] resource uid "delete" (some cur) none)

/-- Embedding of the outcome logic of `delete_event` from
`src/app/src/nextcloud/events.py`: the authenticated DAV collaborators are
abstracted to a `server` map from UID to stored event; an empty UID raises
`ValueError`, a missing event returns `False` ("nothing to delete") without
touching the server, an existing one is deleted and returns `True`. -/
def delete_event {ε : Type} (server : String → Option ε) (uid : String) :
    Except String (Bool × (String → Option ε)) :=
  if uid = "" then .error "Event UID must be provided for deletion"
  else
    match server uid with
    | none => .ok (false, server)
    | some _ => .ok (true, fun u => if u = uid then none else server u)

/-- Embedding of the existence check of `update_event` from
`src/app/src/nextcloud/events.py`: an empty UID raises `ValueError` and a
missing event raises the terminal `ValueError("Event with UID … not
found")`. -/
def update_event_fetch {ε : Type} (server : String → Option ε) (uid : String) :
    Except String ε :=
  if uid = "" then .error "Event UID is required for updates"
  else
    match server uid with
    | none => .error (String.append (String.append "Event with UID " uid) " not found")
    | some ev => .ok ev

/-- A list of characters that does not begin with a decimal digit. -/
def headNotDig : List Char → Prop
  | [] => True
  | c :: _ => isDig c = false

/-- A nonempty run of decimal digits followed by the given unit letter (in
either case), or nothing: one optional component of the duration pattern. -/
def UnitPart (u lo : Char) (l : List Char) : Prop :=
  l = [] ∨ ∃ ds c, ds ≠ [] ∧ (∀ x ∈ ds, isDig x = true) ∧ (c = u ∨ c = lo) ∧ l = ds ++ [c]

/-- The optional `T…` time block of the duration pattern: empty, or `T`
followed by the optional hour, minute and second components in that
order. -/
def TimeShape (l : List Char) : Prop :=
  l = [] ∨ ∃ c hs ms ss, (c = 'T' ∨ c = 't') ∧ UnitPart 'H' 'h' hs ∧
    UnitPart 'M' 'm' ms ∧ UnitPart 'S' 's' ss ∧ l = c :: (hs ++ (ms ++ ss))

/-- The language accepted by the duration parser: after stripping
surrounding whitespace, an optional sign, `P`, an optional day component
and an optional time block, letters in either case, every component a
nonempty digit run — so the empty body (`P`, `PT`) is included. -/
def DurationShape (s : String) : Prop :=
  ∃ sgn p ds ts, (sgn = [] ∨ sgn = ['-']) ∧ (p = 'P' ∨ p = 'p') ∧
    UnitPart 'D' 'd' ds ∧ TimeShape ts ∧ stripWs s.data = sgn ++ p :: (ds ++ ts)

theorem natToDecAux_zero (fuel : Nat) (acc : List Char) :
    natToDecAux fuel 0 acc = acc := by
  cases fuel <;> simp [natToDecAux]

theorem natToDecAux_eq_digits :
    ∀ (fuel n : Nat) (acc : List Char), n ≠ 0 → n < 10 ^ fuel →
      natToDecAux fuel n acc = ((Nat.digits 10 n).map digitToChar).reverse ++ acc := by
  intro fuel
  induction fuel with
  | zero => intro n acc hn hlt; simp at hlt; omega
  | succ f ih =>
    intro n acc hn hlt
    rw [natToDecAux, if_neg hn]
    have hdig := Nat.digits_def' (by norm_num : (1 : ℕ) < 10) (Nat.pos_of_ne_zero hn)
    by_cases h10 : n / 10 = 0
    · rw [h10, natToDecAux_zero, hdig, h10, Nat.digits_zero]
      simp
    · have hp : (10 : ℕ) ^ (f + 1) = 10 ^ f * 10 := pow_succ 10 f
      have hlt2 : n / 10 < 10 ^ f := by
        rw [hp] at hlt
        omega
      rw [ih (n / 10) _ h10 hlt2, hdig]
      simp

theorem natToDec_eq_digits (n : Nat) (hn : n ≠ 0) :
    natToDec n = ((Nat.digits 10 n).map digitToChar).reverse := by
  have hb : n < 10 ^ (n + 1) := by
    calc n < 10 ^ n := Nat.lt_pow_self (by norm_num) n
    _ ≤ 10 ^ (n + 1) := Nat.pow_le_pow_right (by norm_num) (Nat.le_succ n)
  rw [natToDec, if_neg hn, natToDecAux_eq_digits (n + 1) n [] hn hb, List.append_nil]

theorem digitToChar_isDig {d : Nat} (hd : d < 10) : isDig (digitToChar d) = true := by
  interval_cases d <;> decide

theorem digitToChar_digVal {d : Nat} (hd : d < 10) : digVal (digitToChar d) = d := by
  interval_cases d <;> decide

theorem natToDec_all_dig (n : Nat) : ∀ c ∈ natToDec n, isDig c = true := by
  by_cases hn : n = 0
  · subst hn
    intro c hc
    simp [natToDec] at hc
    subst hc
    decide
  · rw [natToDec_eq_digits n hn]
    intro c hc
    rw [List.mem_reverse] at hc
    obtain ⟨d, hd, rfl⟩ := List.mem_map.mp hc
    exact digitToChar_isDig (Nat.digits_lt_base (by norm_num) hd)

theorem natToDec_ne_nil (n : Nat) : natToDec n ≠ [] := by
  by_cases hn : n = 0
  · subst hn; simp [natToDec]
  · rw [natToDec_eq_digits n hn]
    simp [Nat.digits_ne_nil_iff_ne_zero, hn]

theorem natToDec_append_ne_nil (n : Nat) (xs : List Char) : natToDec n ++ xs ≠ [] := by
  intro h
  exact natToDec_ne_nil n (List.append_eq_nil.mp h).1

theorem foldl_digits_rev :
    ∀ (L : List Nat) (a : Nat), (∀ d ∈ L, d < 10) →
      ((L.map digitToChar).reverse).foldl (fun x c => x * 10 + digVal c) a
        = a * 10 ^ L.length + Nat.ofDigits 10 L := by
  intro L
  induction L with
  | nil => intro a _; simp
  | cons d L ih =>
    intro a hall
    rw [List.map_cons, List.reverse_cons, List.foldl_append,
      ih a (fun x hx => hall x (List.mem_cons_of_mem _ hx))]
    simp only [List.foldl_cons, List.foldl_nil]
    rw [digitToChar_digVal (hall d (List.mem_cons_self d L)), Nat.ofDigits_cons,
      List.length_cons, pow_succ]
    ring

theorem foldl_natToDec (n : Nat) :
    (natToDec n).foldl (fun x c => x * 10 + digVal c) 0 = n := by
  by_cases hn : n = 0
  · subst hn; decide
  · rw [natToDec_eq_digits n hn,
      foldl_digits_rev _ 0 (fun d hd => Nat.digits_lt_base (by norm_num) hd)]
    simp [Nat.ofDigits_digits]

theorem readNatAux_digits :
    ∀ (ds rest : List Char) (a : Nat), (∀ c ∈ ds, isDig c = true) →
      readNatAux (ds ++ rest) a
        = readNatAux rest (ds.foldl (fun x c => x * 10 + digVal c) a) := by
  intro ds
  induction ds with
  | nil => intro rest a _; simp
  | cons c ds ih =>
    intro rest a hall
    rw [List.cons_append, readNatAux, if_pos (hall c (List.mem_cons_self c ds)),
      ih rest _ (fun x hx => hall x (List.mem_cons_of_mem _ hx))]
    simp

theorem readNatAux_stop (rest : List Char) (a : Nat) (h : headNotDig rest) :
    readNatAux rest a = (a, rest) := by
  cases rest with
  | nil => simp [readNatAux]
  | cons c r =>
    have hc : isDig c = false := h
    simp [readNatAux, hc]

theorem readNatAux_natToDec (n : Nat) (rest : List Char) (h : headNotDig rest) :
    readNatAux (natToDec n ++ rest) 0 = (n, rest) := by
  rw [readNatAux_digits _ _ _ (natToDec_all_dig n), foldl_natToDec,
    readNatAux_stop _ _ h]

theorem readComp_digits (ds : List Char) (hne : ds ≠ []) (hds : ∀ c ∈ ds, isDig c = true)
    (l : Char) (hl : isDig l = false) (r : List Char) :
    readComp (ds ++ l :: r) = some (ds.foldl (fun x c => x * 10 + digVal c) 0, l, r) := by
  obtain ⟨c, cs, rfl⟩ := List.exists_cons_of_ne_nil hne
  rw [List.cons_append, readComp, if_pos (hds c (List.mem_cons_self c cs)),
    ← List.cons_append, readNatAux_digits _ _ _ hds,
    readNatAux_stop _ _ (show headNotDig (l :: r) from hl)]

theorem readComp_natToDec (n : Nat) (l : Char) (hl : isDig l = false) (r : List Char) :
    readComp (natToDec n ++ l :: r) = some (n, l, r) := by
  rw [readComp_digits _ (natToDec_ne_nil n) (natToDec_all_dig n) l hl r, foldl_natToDec]

theorem parseDaysPart_natToDec (k : Nat) (rest : List Char) :
    parseDaysPart (natToDec k ++ 'D' :: rest) = some (k, rest) := by
  obtain ⟨c, cs, hc⟩ := List.exists_cons_of_ne_nil (natToDec_ne_nil k)
  have hcd : isDig c = true := natToDec_all_dig k c (by rw [hc]; exact List.mem_cons_self c cs)
  rw [hc, List.cons_append, parseDaysPart, if_pos hcd, ← List.cons_append, ← hc,
    readComp_natToDec k 'D' (by decide) rest]
  simp

theorem parseDaysPart_notDig (cs : List Char) (h : headNotDig cs) :
    parseDaysPart cs = some (0, cs) := by
  cases cs with
  | nil => rfl
  | cons c r =>
    have hc : isDig c = false := h
    simp [parseDaysPart, hc]

theorem parseHMS_hmsParts (h m s : Nat) :
    parseHMS (hmsParts h m s) = some (h * 3600 + m * 60 + s) := by
  have rS := fun r => readComp_natToDec s 'S' (by decide) r
  have rM := fun r => readComp_natToDec m 'M' (by decide) r
  have rH := fun r => readComp_natToDec h 'H' (by decide) r
  by_cases hh : h = 0 <;> by_cases hm : m = 0 <;> by_cases hs : s = 0 <;>
    simp [hmsParts, hh, hm, hs, parseHMS, natToDec_append_ne_nil, rS, rM, rH,
      List.append_assoc]

theorem hmsParts_eq_nil_iff (h m s : Nat) :
    hmsParts h m s = [] ↔ h = 0 ∧ m = 0 ∧ s = 0 := by
  constructor
  · intro he
    rcases List.append_eq_nil.mp he with ⟨h1, h23⟩
    rcases List.append_eq_nil.mp h23 with ⟨h2, h3⟩
    refine ⟨?_, ?_, ?_⟩
    · by_contra hne
      rw [if_neg hne] at h1
      exact natToDec_append_ne_nil h _ h1
    · by_contra hne
      rw [if_neg hne] at h2
      exact natToDec_append_ne_nil m _ h2
    · by_contra hne
      rw [if_neg hne] at h3
      exact natToDec_append_ne_nil s _ h3
  · rintro ⟨rfl, rfl, rfl⟩
    simp [hmsParts]

theorem fmtChars_chars (n : Int) (P : Char → Prop)
    (hdig : ∀ c, isDig c = true → P c)
    (hP : P 'P') (hT : P 'T')
    (hminus : n < 0 → P '-')
    (hD : n.natAbs / 86400 ≠ 0 → P 'D')
    (hH : n.natAbs % 86400 / 3600 ≠ 0 → P 'H')
    (hM : n.natAbs % 86400 % 3600 / 60 ≠ 0 → P 'M')
    (hS : n.natAbs % 86400 % 3600 % 60 ≠ 0 ∨ n.natAbs = 0 → P 'S') :
    ∀ c ∈ fmtChars n, P c := by
  intro c hc
  simp only [fmtChars, fmtBody] at hc
  rcases List.mem_append.mp hc with h | h
  · by_cases hn : n < 0
    · rw [if_pos hn] at h
      have := List.mem_singleton.mp h
      subst this
      exact hminus hn
    · rw [if_neg hn] at h
      exact absurd h (List.not_mem_nil c)
  · rcases List.mem_cons.mp h with rfl | h
    · exact hP
    rcases List.mem_append.mp h with h | h
    · by_cases hd : n.natAbs / 86400 = 0
      · rw [if_pos hd] at h
        exact absurd h (List.not_mem_nil c)
      · rw [if_neg hd] at h
        rcases List.mem_append.mp h with h | h
        · exact hdig c (natToDec_all_dig _ c h)
        · have := List.mem_singleton.mp h
          subst this
          exact hD hd
    · by_cases h2 :
        (if n.natAbs / 86400 = 0 then ([] : List Char)
          else natToDec (n.natAbs / 86400) ++ ['D']) = [] ∧
        hmsParts (n.natAbs % 86400 / 3600) (n.natAbs % 86400 % 3600 / 60)
          (n.natAbs % 86400 % 3600 % 60) = []
      · rw [if_pos h2, if_neg (by decide)] at h
        have hd0 : n.natAbs / 86400 = 0 := by
          by_contra hne
          rw [if_neg hne] at h2
          exact natToDec_append_ne_nil _ _ h2.1
        obtain ⟨hz1, hz2, hz3⟩ := (hmsParts_eq_nil_iff _ _ _).mp h2.2
        have ht0 : n.natAbs = 0 := by omega
        rcases List.mem_cons.mp h with rfl | h
        · exact hT
        rcases List.mem_cons.mp h with rfl | h
        · exact hdig _ (by decide)
        have := List.mem_singleton.mp h
        subst this
        exact hS (Or.inr ht0)
      · rw [if_neg h2] at h
        by_cases h3 :
          hmsParts (n.natAbs % 86400 / 3600) (n.natAbs % 86400 % 3600 / 60)
            (n.natAbs % 86400 % 3600 % 60) = []
        · rw [if_pos h3] at h
          exact absurd h (List.not_mem_nil c)
        · rw [if_neg h3] at h
          rcases List.mem_cons.mp h with rfl | h
          · exact hT
          rw [hmsParts] at h
          rcases List.mem_append.mp h with h | h
          · by_cases hz : n.natAbs % 86400 / 3600 = 0
            · rw [if_pos hz] at h
              exact absurd h (List.not_mem_nil c)
            · rw [if_neg hz] at h
              rcases List.mem_append.mp h with h | h
              · exact hdig c (natToDec_all_dig _ c h)
              · have := List.mem_singleton.mp h
                subst this
                exact hH hz
          rcases List.mem_append.mp h with h | h
          · by_cases hz : n.natAbs % 86400 % 3600 / 60 = 0
            · rw [if_pos hz] at h
              exact absurd h (List.not_mem_nil c)
            · rw [if_neg hz] at h
              rcases List.mem_append.mp h with h | h
              · exact hdig c (natToDec_all_dig _ c h)
              · have := List.mem_singleton.mp h
                subst this
                exact hM hz
          · by_cases hz : n.natAbs % 86400 % 3600 % 60 = 0
            · rw [if_pos hz] at h
              exact absurd h (List.not_mem_nil c)
            · rw [if_neg hz] at h
              rcases List.mem_append.mp h with h | h
              · exact hdig c (natToDec_all_dig _ c h)
              · have := List.mem_singleton.mp h
                subst this
                exact hS (Or.inl hz)

theorem dig_not_ws {c : Char} (h : isDig c = true) : isPyWs c = false := by
  simp only [isDig, Bool.and_eq_true, decide_eq_true_eq] at h
  simp only [isPyWs, Bool.or_eq_false_iff, Bool.and_eq_false_iff,
    decide_eq_false_iff_not]
  omega

theorem noWs_fmtChars (n : Int) : ∀ c ∈ fmtChars n, isPyWs c = false := by
  refine fmtChars_chars n (fun c => isPyWs c = false) (fun c h => dig_not_ws h)
    (by decide) (by decide) (fun _ => by decide) (fun _ => by decide)
    (fun _ => by decide) (fun _ => by decide) (fun _ => by decide)

theorem dropWhile_eq_self_of (p : Char → Bool) (l : List Char)
    (h : ∀ c ∈ l, p c = false) : l.dropWhile p = l := by
  cases l with
  | nil => rfl
  | cons c r => simp [List.dropWhile, h c (List.mem_cons_self c r)]

theorem stripWs_eq_self (l : List Char) (h : ∀ c ∈ l, isPyWs c = false) :
    stripWs l = l := by
  rw [stripWs, dropWhile_eq_self_of _ _ h,
    dropWhile_eq_self_of _ _ (fun c hc => h c (List.mem_reverse.mp hc)),
    List.reverse_reverse]

theorem parseBody_parts (dd h m s : Nat) :
    parseBody ((if dd = 0 then [] else natToDec dd ++ ['D'])
      ++ (if (if (if dd = 0 then ([] : List Char) else natToDec dd ++ ['D']) = [] ∧
              hmsParts h m s = [] then ['0', 'S'] else hmsParts h m s) = [] then []
          else 'T' ::
            (if (if dd = 0 then ([] : List Char) else natToDec dd ++ ['D']) = [] ∧
                hmsParts h m s = [] then ['0', 'S'] else hmsParts h m s)))
      = some (dd * 86400 + (h * 3600 + m * 60 + s)) := by
  have pT : ∀ r : List Char, parseTimePart ('T' :: r) = parseHMS r := by
    intro r
    simp [parseTimePart]
  have pN : parseTimePart ([] : List Char) = some 0 := rfl
  by_cases hdd : dd = 0 <;> by_cases hts : hmsParts h m s = []
  · obtain ⟨h0, m0, s0⟩ := (hmsParts_eq_nil_iff h m s).mp hts
    subst h0 m0 s0
    subst hdd
    simp only [hts, if_pos rfl, List.nil_append, and_self, reduceIte]
    decide
  · have e1 : parseDaysPart ('T' :: hmsParts h m s) = some (0, 'T' :: hmsParts h m s) :=
      parseDaysPart_notDig _ (show isDig 'T' = false by decide)
    subst hdd
    simp only [reduceIte, List.nil_append, true_and, if_neg hts]
    rw [parseBody, e1]
    simp only [pT, parseHMS_hmsParts]
  · obtain ⟨h0, m0, s0⟩ := (hmsParts_eq_nil_iff h m s).mp hts
    subst h0 m0 s0
    simp only [if_neg hdd, hts, natToDec_append_ne_nil, false_and, and_true,
      reduceIte, List.append_nil]
    rw [show (natToDec dd ++ ['D'] : List Char) = natToDec dd ++ 'D' :: [] from rfl,
      parseBody, parseDaysPart_natToDec]
    simp only [pN]
  · simp only [if_neg hdd, natToDec_append_ne_nil, false_and, reduceIte, if_neg hts,
      List.append_assoc, List.singleton_append]
    rw [parseBody, parseDaysPart_natToDec]
    simp only [pT, parseHMS_hmsParts]

theorem parseBody_fmtBody (n : Int) : parseBody (fmtBody n) = some n.natAbs := by
  simp only [fmtBody]
  rw [parseBody_parts]
  congr 1
  omega

theorem parse_fmt (n : Int) :
    iso8601_to_timedelta (timedelta_to_iso8601 n) = some n := by
  have hsh : fmtChars n = (if n < 0 then ['-'] else []) ++ 'P' :: fmtBody n := rfl
  have hbody := parseBody_fmtBody n
  set body := fmtBody n with hbdef
  by_cases hn : n < 0
  · have hsh2 : fmtChars n = '-' :: 'P' :: body := by
      rw [hsh, if_pos hn, List.singleton_append]
    have hstrip2 : stripWs ('-' :: 'P' :: body) = '-' :: 'P' :: body := by
      rw [← hsh2]
      exact stripWs_eq_self _ (noWs_fmtChars n)
    rw [timedelta_to_iso8601, hsh2]
    show (match stripWs ('-' :: 'P' :: body) with
          | [] => none
          | d :: rest =>
            if d = '-' then (parseP rest).map (fun k => -(k : Int))
            else (parseP (d :: rest)).map (fun k => (k : Int))) = some n
    rw [hstrip2]
    show (if ('-' : Char) = '-' then (parseP ('P' :: body)).map (fun k => -(k : Int))
          else (parseP ('-' :: 'P' :: body)).map (fun k => (k : Int))) = some n
    rw [if_pos rfl, parseP, if_pos (Or.inl rfl), hbody]
    show some (-(n.natAbs : Int)) = some n
    congr 1
    omega
  · have hsh2 : fmtChars n = 'P' :: body := by
      rw [hsh, if_neg hn, List.nil_append]
    have hstrip2 : stripWs ('P' :: body) = 'P' :: body := by
      rw [← hsh2]
      exact stripWs_eq_self _ (noWs_fmtChars n)
    rw [timedelta_to_iso8601, hsh2]
    show (match stripWs ('P' :: body) with
          | [] => none
          | d :: rest =>
            if d = '-' then (parseP rest).map (fun k => -(k : Int))
            else (parseP (d :: rest)).map (fun k => (k : Int))) = some n
    rw [hstrip2]
    show (if ('P' : Char) = '-' then (parseP body).map (fun k => -(k : Int))
          else (parseP ('P' :: body)).map (fun k => (k : Int))) = some n
    rw [if_neg (by decide), parseP, if_pos (Or.inl rfl), hbody]
    show some ((n.natAbs : Int)) = some n
    congr 1
    omega

theorem append_ne_nil_left {a b : List Char} (h : a ≠ []) : a ++ b ≠ [] := by
  intro he
  exact h (List.append_eq_nil.mp he).1

theorem readNatAux_inv :
    ∀ (cs : List Char) (a v : Nat) (r : List Char), readNatAux cs a = (v, r) →
      ∃ ds, cs = ds ++ r ∧ (∀ c ∈ ds, isDig c = true) ∧ headNotDig r := by
  intro cs
  induction cs with
  | nil =>
    intro a v r h
    rw [readNatAux] at h
    cases h
    exact ⟨[], by simp, by simp, trivial⟩
  | cons c cs ih =>
    intro a v r h
    rw [readNatAux] at h
    by_cases hc : isDig c = true
    · rw [if_pos hc] at h
      obtain ⟨ds, hds1, hds2, hds3⟩ := ih _ _ _ h
      refine ⟨c :: ds, by rw [List.cons_append, hds1], ?_, hds3⟩
      intro x hx
      rcases List.mem_cons.mp hx with rfl | hx
      · exact hc
      · exact hds2 x hx
    · rw [if_neg hc] at h
      cases h
      have hcf : isDig c = false := by simpa using hc
      exact ⟨[], by simp, by simp, show headNotDig (c :: cs) from hcf⟩

theorem readComp_inv (cs : List Char) (n : Nat) (l : Char) (r : List Char)
    (h : readComp cs = some (n, l, r)) :
    ∃ ds, ds ≠ [] ∧ (∀ c ∈ ds, isDig c = true) ∧ isDig l = false ∧ cs = ds ++ l :: r := by
  cases cs with
  | nil => simp [readComp] at h
  | cons c cs0 =>
    rw [readComp] at h
    by_cases hc : isDig c = true
    · rw [if_pos hc] at h
      rcases hr : readNatAux (c :: cs0) 0 with ⟨v, rr⟩
      rw [hr] at h
      cases rr with
      | nil => simp at h
      | cons l2 r2 =>
        dsimp only at h
        simp only [Option.some.injEq, Prod.mk.injEq] at h
        obtain ⟨hv, hl, hrr⟩ := h
        rw [hl, hrr] at hr
        obtain ⟨ds, hds1, hds2, hds3⟩ := readNatAux_inv _ _ _ _ hr
        have hld : isDig l = false := hds3
        refine ⟨ds, ?_, hds2, hld, hds1⟩
        intro hdsnil
        rw [hdsnil, List.nil_append] at hds1
        injection hds1 with hcl htl
        rw [hcl, hld] at hc
        exact Bool.noConfusion hc
    · rw [if_neg hc] at h
      simp at h

theorem parseHMS_inv (cs : List Char) (v : Nat) (h : parseHMS cs = some v) :
    ∃ hs ms ss, UnitPart 'H' 'h' hs ∧ UnitPart 'M' 'm' ms ∧ UnitPart 'S' 's' ss ∧
      cs = hs ++ (ms ++ ss) := by
  rw [parseHMS] at h
  by_cases hnil : cs = []
  · exact ⟨[], [], [], Or.inl rfl, Or.inl rfl, Or.inl rfl, by simp [hnil]⟩
  · rw [if_neg hnil] at h
    rcases h1 : readComp cs with - | ⟨n1, c1, r1⟩
    · rw [h1] at h; simp at h
    rw [h1] at h
    dsimp only at h
    obtain ⟨ds1, hne1, hdig1, -, hcs⟩ := readComp_inv _ _ _ _ h1
    by_cases e1 : c1 = 'H' ∨ c1 = 'h'
    · rw [if_pos e1] at h
      by_cases r1nil : r1 = []
      · subst r1nil
        exact ⟨ds1 ++ [c1], [], [], Or.inr ⟨ds1, c1, hne1, hdig1, e1, rfl⟩,
          Or.inl rfl, Or.inl rfl, by simp [hcs]⟩
      · rw [if_neg r1nil] at h
        rcases h2 : readComp r1 with - | ⟨n2, c2, r2⟩
        · rw [h2] at h; simp at h
        rw [h2] at h
        dsimp only at h
        obtain ⟨ds2, hne2, hdig2, -, hr1⟩ := readComp_inv _ _ _ _ h2
        by_cases e2 : c2 = 'M' ∨ c2 = 'm'
        · rw [if_pos e2] at h
          by_cases r2nil : r2 = []
          · subst r2nil
            exact ⟨ds1 ++ [c1], ds2 ++ [c2], [],
              Or.inr ⟨ds1, c1, hne1, hdig1, e1, rfl⟩,
              Or.inr ⟨ds2, c2, hne2, hdig2, e2, rfl⟩,
              Or.inl rfl, by simp [hcs, hr1]⟩
          · rw [if_neg r2nil] at h
            rcases h3 : readComp r2 with - | ⟨n3, c3, r3⟩
            · rw [h3] at h; simp at h
            rw [h3] at h
            dsimp only at h
            obtain ⟨ds3, hne3, hdig3, -, hr2⟩ := readComp_inv _ _ _ _ h3
            by_cases e3 : (c3 = 'S' ∨ c3 = 's') ∧ r3 = []
            · obtain ⟨e3a, rfl⟩ := e3
              exact ⟨ds1 ++ [c1], ds2 ++ [c2], ds3 ++ [c3],
                Or.inr ⟨ds1, c1, hne1, hdig1, e1, rfl⟩,
                Or.inr ⟨ds2, c2, hne2, hdig2, e2, rfl⟩,
                Or.inr ⟨ds3, c3, hne3, hdig3, e3a, rfl⟩,
                by simp [hcs, hr1, hr2]⟩
            · rw [if_neg e3] at h; simp at h
        · rw [if_neg e2] at h
          by_cases e2b : (c2 = 'S' ∨ c2 = 's') ∧ r2 = []
          · obtain ⟨e2a, rfl⟩ := e2b
            rw [if_pos ⟨e2a, rfl⟩] at h
            exact ⟨ds1 ++ [c1], [], ds2 ++ [c2],
              Or.inr ⟨ds1, c1, hne1, hdig1, e1, rfl⟩,
              Or.inl rfl,
              Or.inr ⟨ds2, c2, hne2, hdig2, e2a, rfl⟩,
              by simp [hcs, hr1]⟩
          · rw [if_neg e2b] at h; simp at h
    · rw [if_neg e1] at h
      by_cases e1b : c1 = 'M' ∨ c1 = 'm'
      · rw [if_pos e1b] at h
        by_cases r1nil : r1 = []
        · subst r1nil
          exact ⟨[], ds1 ++ [c1], [], Or.inl rfl,
            Or.inr ⟨ds1, c1, hne1, hdig1, e1b, rfl⟩, Or.inl rfl, by simp [hcs]⟩
        · rw [if_neg r1nil] at h
          rcases h2 : readComp r1 with - | ⟨n2, c2, r2⟩
          · rw [h2] at h; simp at h
          rw [h2] at h
          dsimp only at h
          obtain ⟨ds2, hne2, hdig2, -, hr1⟩ := readComp_inv _ _ _ _ h2
          by_cases e2 : (c2 = 'S' ∨ c2 = 's') ∧ r2 = []
          · obtain ⟨e2a, rfl⟩ := e2
            exact ⟨[], ds1 ++ [c1], ds2 ++ [c2], Or.inl rfl,
              Or.inr ⟨ds1, c1, hne1, hdig1, e1b, rfl⟩,
              Or.inr ⟨ds2, c2, hne2, hdig2, e2a, rfl⟩,
              by simp [hcs, hr1]⟩
          · rw [if_neg e2] at h; simp at h
      · rw [if_neg e1b] at h
        by_cases e1c : (c1 = 'S' ∨ c1 = 's') ∧ r1 = []
        · obtain ⟨e1a, rfl⟩ := e1c
          exact ⟨[], [], ds1 ++ [c1], Or.inl rfl, Or.inl rfl,
            Or.inr ⟨ds1, c1, hne1, hdig1, e1a, rfl⟩, by simp [hcs]⟩
        · rw [if_neg e1c] at h; simp at h

theorem parseTimePart_inv (cs : List Char) (v : Nat) (h : parseTimePart cs = some v) :
    TimeShape cs := by
  cases cs with
  | nil => exact Or.inl rfl
  | cons c r =>
    rw [parseTimePart] at h
    by_cases e : c = 'T' ∨ c = 't'
    · rw [if_pos e] at h
      obtain ⟨hs, ms, ss, u1, u2, u3, rfl⟩ := parseHMS_inv r v h
      exact Or.inr ⟨c, hs, ms, ss, e, u1, u2, u3, rfl⟩
    · rw [if_neg e] at h; simp at h

theorem parseDaysPart_inv (cs : List Char) (k : Nat) (r : List Char)
    (h : parseDaysPart cs = some (k, r)) :
    ∃ dp, UnitPart 'D' 'd' dp ∧ cs = dp ++ r := by
  cases cs with
  | nil =>
    rw [parseDaysPart] at h
    simp only [Option.some.injEq, Prod.mk.injEq] at h
    exact ⟨[], Or.inl rfl, by simp [h.2]⟩
  | cons c cs0 =>
    rw [parseDaysPart] at h
    by_cases hc : isDig c = true
    · rw [if_pos hc] at h
      rcases h1 : readComp (c :: cs0) with - | ⟨n, l, rr⟩
      · rw [h1] at h; simp at h
      rw [h1] at h
      dsimp only at h
      by_cases hd : l = 'D' ∨ l = 'd'
      · rw [if_pos hd] at h
        simp only [Option.some.injEq, Prod.mk.injEq] at h
        obtain ⟨-, rfl⟩ := h
        obtain ⟨ds, hne, hdig, -, hcs⟩ := readComp_inv _ _ _ _ h1
        exact ⟨ds ++ [l], Or.inr ⟨ds, l, hne, hdig, hd, rfl⟩, by simp [hcs]⟩
      · rw [if_neg hd] at h; simp at h
    · rw [if_neg hc] at h
      simp only [Option.some.injEq, Prod.mk.injEq] at h
      exact ⟨[], Or.inl rfl, by simp [h.2]⟩

theorem parseBody_inv (cs : List Char) (v : Nat) (h : parseBody cs = some v) :
    ∃ dp ts, UnitPart 'D' 'd' dp ∧ TimeShape ts ∧ cs = dp ++ ts := by
  rw [parseBody] at h
  rcases h1 : parseDaysPart cs with - | ⟨k, r⟩
  · rw [h1] at h; simp at h
  rw [h1] at h
  dsimp only at h
  rcases h2 : parseTimePart r with - | t
  · rw [h2] at h; simp at h
  obtain ⟨dp, hdp, hcs⟩ := parseDaysPart_inv _ _ _ h1
  exact ⟨dp, r, hdp, parseTimePart_inv _ _ h2, hcs⟩

theorem parseP_inv (cs : List Char) (v : Nat) (h : parseP cs = some v) :
    ∃ p body, (p = 'P' ∨ p = 'p') ∧ cs = p :: body ∧ parseBody body = some v := by
  cases cs with
  | nil => simp [parseP] at h
  | cons c rest =>
    rw [parseP] at h
    by_cases e : c = 'P' ∨ c = 'p'
    · rw [if_pos e] at h
      exact ⟨c, rest, e, rfl, h⟩
    · rw [if_neg e] at h; simp at h

theorem parseHMS_sound (hs ms ss : List Char)
    (h1 : UnitPart 'H' 'h' hs) (h2 : UnitPart 'M' 'm' ms) (h3 : UnitPart 'S' 's' ss) :
    (parseHMS (hs ++ (ms ++ ss))).isSome = true := by
  rcases h1 with rfl | ⟨ds1, c1, hne1, hdig1, hc1, rfl⟩
  · rcases h2 with rfl | ⟨ds2, c2, hne2, hdig2, hc2, rfl⟩
    · rcases h3 with rfl | ⟨ds3, c3, hne3, hdig3, hc3, rfl⟩
      · simp [parseHMS]
      · have hd3 : isDig c3 = false := by rcases hc3 with rfl | rfl <;> decide
        have hH : ¬(c3 = 'H' ∨ c3 = 'h') := by rcases hc3 with rfl | rfl <;> decide
        have hM : ¬(c3 = 'M' ∨ c3 = 'm') := by rcases hc3 with rfl | rfl <;> decide
        rw [show ([] : List Char) ++ ([] ++ (ds3 ++ [c3])) = ds3 ++ c3 :: [] by simp,
          parseHMS, if_neg (append_ne_nil_left hne3),
          readComp_digits ds3 hne3 hdig3 c3 hd3 []]
        dsimp only
        rw [if_neg hH, if_neg hM, if_pos ⟨hc3, rfl⟩]
        rfl
    · have hd2 : isDig c2 = false := by rcases hc2 with rfl | rfl <;> decide
      have hH : ¬(c2 = 'H' ∨ c2 = 'h') := by rcases hc2 with rfl | rfl <;> decide
      rcases h3 with rfl | ⟨ds3, c3, hne3, hdig3, hc3, rfl⟩
      · rw [show ([] : List Char) ++ ((ds2 ++ [c2]) ++ []) = ds2 ++ c2 :: [] by simp,
          parseHMS, if_neg (append_ne_nil_left hne2),
          readComp_digits ds2 hne2 hdig2 c2 hd2 []]
        dsimp only
        rw [if_neg hH, if_pos hc2, if_pos rfl]
        rfl
      · have hd3 : isDig c3 = false := by rcases hc3 with rfl | rfl <;> decide
        have hM3 : ¬(c3 = 'M' ∨ c3 = 'm') := by rcases hc3 with rfl | rfl <;> decide
        rw [show ([] : List Char) ++ ((ds2 ++ [c2]) ++ (ds3 ++ [c3]))
              = ds2 ++ c2 :: (ds3 ++ c3 :: []) by simp,
          parseHMS, if_neg (append_ne_nil_left hne2),
          readComp_digits ds2 hne2 hdig2 c2 hd2 _]
        dsimp only
        rw [if_neg hH, if_pos hc2, if_neg (append_ne_nil_left hne3),
          readComp_digits ds3 hne3 hdig3 c3 hd3 []]
        dsimp only
        rw [if_pos ⟨hc3, rfl⟩]
        rfl
  · have hd1 : isDig c1 = false := by rcases hc1 with rfl | rfl <;> decide
    rcases h2 with rfl | ⟨ds2, c2, hne2, hdig2, hc2, rfl⟩
    · rcases h3 with rfl | ⟨ds3, c3, hne3, hdig3, hc3, rfl⟩
      · rw [show (ds1 ++ [c1]) ++ ([] ++ []) = ds1 ++ c1 :: [] by simp,
          parseHMS, if_neg (append_ne_nil_left hne1),
          readComp_digits ds1 hne1 hdig1 c1 hd1 []]
        dsimp only
        rw [if_pos hc1, if_pos rfl]
        rfl
      · have hd3 : isDig c3 = false := by rcases hc3 with rfl | rfl <;> decide
        have hM3 : ¬(c3 = 'M' ∨ c3 = 'm') := by rcases hc3 with rfl | rfl <;> decide
        rw [show (ds1 ++ [c1]) ++ ([] ++ (ds3 ++ [c3])) = ds1 ++ c1 :: (ds3 ++ c3 :: []) by simp,
          parseHMS, if_neg (append_ne_nil_left hne1),
          readComp_digits ds1 hne1 hdig1 c1 hd1 _]
        dsimp only
        rw [if_pos hc1, if_neg (append_ne_nil_left hne3),
          readComp_digits ds3 hne3 hdig3 c3 hd3 []]
        dsimp only
        rw [if_neg hM3, if_pos ⟨hc3, rfl⟩]
        rfl
    · have hd2 : isDig c2 = false := by rcases hc2 with rfl | rfl <;> decide
      rcases h3 with rfl | ⟨ds3, c3, hne3, hdig3, hc3, rfl⟩
      · rw [show (ds1 ++ [c1]) ++ ((ds2 ++ [c2]) ++ []) = ds1 ++ c1 :: (ds2 ++ c2 :: []) by simp,
          parseHMS, if_neg (append_ne_nil_left hne1),
          readComp_digits ds1 hne1 hdig1 c1 hd1 _]
        dsimp only
        rw [if_pos hc1, if_neg (append_ne_nil_left hne2),
          readComp_digits ds2 hne2 hdig2 c2 hd2 []]
        dsimp only
        rw [if_pos hc2, if_pos rfl]
        rfl
      · have hd3 : isDig c3 = false := by rcases hc3 with rfl | rfl <;> decide
        rw [show (ds1 ++ [c1]) ++ ((ds2 ++ [c2]) ++ (ds3 ++ [c3]))
              = ds1 ++ c1 :: (ds2 ++ c2 :: (ds3 ++ c3 :: [])) by simp,
          parseHMS, if_neg (append_ne_nil_left hne1),
          readComp_digits ds1 hne1 hdig1 c1 hd1 _]
        dsimp only
        rw [if_pos hc1, if_neg (append_ne_nil_left hne2),
          readComp_digits ds2 hne2 hdig2 c2 hd2 _]
        dsimp only
        rw [if_pos hc2, if_neg (append_ne_nil_left hne3),
          readComp_digits ds3 hne3 hdig3 c3 hd3 []]
        dsimp only
        rw [if_pos ⟨hc3, rfl⟩]
        rfl

theorem parseTimePart_sound (ts : List Char) (h : TimeShape ts) :
    (parseTimePart ts).isSome = true := by
  rcases h with rfl | ⟨c, hs, ms, ss, hc, u1, u2, u3, rfl⟩
  · rfl
  · rw [parseTimePart, if_pos hc]
    exact parseHMS_sound hs ms ss u1 u2 u3

theorem parseBody_sound (dp ts : List Char) (hdp : UnitPart 'D' 'd' dp)
    (hts : TimeShape ts) : (parseBody (dp ++ ts)).isSome = true := by
  have htp := parseTimePart_sound ts hts
  rcases hdp with rfl | ⟨ds, c, hne, hdig, hc, rfl⟩
  · have hh : headNotDig ts := by
      rcases hts with rfl | ⟨c, hs, ms, ss, hc, -, -, -, rfl⟩
      · trivial
      · show isDig c = false
        rcases hc with rfl | rfl <;> decide
    rw [List.nil_append, parseBody, parseDaysPart_notDig ts hh]
    dsimp only
    rcases h2 : parseTimePart ts with - | t
    · rw [h2] at htp; simp at htp
    · rfl
  · have hd : isDig c = false := by rcases hc with rfl | rfl <;> decide
    rw [show (ds ++ [c]) ++ ts = ds ++ c :: ts by simp]
    obtain ⟨d0, ds0, rfl⟩ := List.exists_cons_of_ne_nil hne
    rw [List.cons_append, parseBody, parseDaysPart,
      if_pos (hdig d0 (List.mem_cons_self d0 ds0)), ← List.cons_append,
      readComp_digits _ hne hdig c hd ts]
    dsimp only
    rw [if_pos hc]
    dsimp only
    rcases h2 : parseTimePart ts with - | t
    · rw [h2] at htp; simp at htp
    · rfl

theorem iso8601_isSome_iff (s : String) :
    (iso8601_to_timedelta s).isSome = true ↔ DurationShape s := by
  constructor
  · intro h
    unfold iso8601_to_timedelta at h
    rcases hsd : s.data with - | ⟨c, cs⟩
    · rw [hsd] at h; simp at h
    rw [hsd] at h
    dsimp only at h
    rcases hst : stripWs (c :: cs) with - | ⟨d, rest⟩
    · rw [hst] at h; simp at h
    rw [hst] at h
    dsimp only at h
    by_cases hd : d = '-'
    · rw [if_pos hd] at h
      rcases hp : parseP rest with - | v
      · rw [hp] at h; simp at h
      obtain ⟨p, body, hpc, rfl, hb⟩ := parseP_inv rest v hp
      obtain ⟨dp, ts, hdp, hts, rfl⟩ := parseBody_inv _ _ hb
      refine ⟨['-'], p, dp, ts, Or.inr rfl, hpc, hdp, hts, ?_⟩
      rw [hsd, hst, hd]
      simp
    · rw [if_neg hd] at h
      rcases hp : parseP (d :: rest) with - | v
      · rw [hp] at h; simp at h
      obtain ⟨p, body, hpc, hdp0, hb⟩ := parseP_inv _ v hp
      injection hdp0 with hdp1 hdp2
      obtain ⟨dpart, ts, hdp, hts, hb2⟩ := parseBody_inv _ _ hb
      refine ⟨[], p, dpart, ts, Or.inl rfl, hpc, hdp, hts, ?_⟩
      rw [hsd, hst, hdp1, hdp2, hb2]
      simp
  · intro hshape
    obtain ⟨sgn, p, dp, ts, hsgn, hpc, hdp, hts, heq⟩ := hshape
    have hne : s.data ≠ [] := by
      intro h0
      rw [h0] at heq
      rcases hsgn with rfl | rfl <;> simp [stripWs] at heq
    obtain ⟨c, cs, hsd⟩ := List.exists_cons_of_ne_nil hne
    rw [hsd] at heq
    unfold iso8601_to_timedelta
    rw [hsd]
    dsimp only
    have hson := parseBody_sound dp ts hdp hts
    rcases hsgn with rfl | rfl
    · rw [List.nil_append] at heq
      rw [heq]
      dsimp only
      have hpd : ¬ (p = '-') := by rcases hpc with rfl | rfl <;> decide
      rw [if_neg hpd, parseP, if_pos hpc]
      rcases hb : parseBody (dp ++ ts) with - | v
      · rw [hb] at hson; simp at hson
      · rfl
    · rw [List.singleton_append] at heq
      rw [heq]
      dsimp only
      rw [if_pos rfl, parseP, if_pos hpc]
      rcases hb : parseBody (dp ++ ts) with - | v
      · rw [hb] at hson; simp at hson
      · rfl

theorem stringify_eq_none_iff (v : TriggerValue) :
    stringify_trigger v = none ↔ v = .vNone := by
  induction v with
  | vNone => simp [stringify_trigger]
  | vStr s => simp [stringify_trigger]
  | vDatetime dt => simp [stringify_trigger]
  | vDate y m d => simp [stringify_trigger]
  | vDelta n => simp [stringify_trigger]
  | vProp i ih =>
    cases i with
    | vNone => simp [stringify_trigger]
    | vStr s => simp [stringify_trigger]
    | vDatetime dt => simp [stringify_trigger]
    | vDate y m d => simp [stringify_trigger]
    | vDelta n => simp [stringify_trigger]
    | vProp j =>
      rw [show stringify_trigger (.vProp (.vProp j)) = stringify_trigger (.vProp j) from rfl,
        ih]
      simp

theorem applyTz1_cases (dt : PyDateTime) (tz : Option String) :
    applyTz1 dt tz = dt ∨
      ∃ z, applyTz1 dt tz = { dt with tz := some (.named z) } := by
  unfold applyTz1
  by_cases h1 : dt.tz.isSome
  · rw [if_pos h1]
    exact Or.inl rfl
  · rw [if_neg h1]
    rcases tz with - | z
    · exact Or.inl rfl
    · dsimp only
      by_cases h2 : z = ""
      · rw [if_pos h2]
        exact Or.inl rfl
      · rw [if_neg h2]
        by_cases h3 : zoneResolvable z = true
        · rw [if_pos h3]
          exact Or.inr ⟨z, rfl⟩
        · rw [if_neg h3]
          exact Or.inl rfl

/-- C4: for every non-null raw trigger value the decoder applies its
interpretations in a fixed order — the absolute-timestamp interpretation
(`coerce_to_datetime`) first, then the signed-duration interpretation
(`coerce_to_timedelta`), then the opaque fallback that stringifies the
value verbatim into `fire_time` as an ABSOLUTE reminder keeping the
trigger's own zone metadata — and it raises the "reminder trigger missing
or unreadable" error exactly when the raw value is absent/unreadable
(cannot even be stringified, i.e. is `None`); no other input is
rejected. -/
theorem trigger_decoder_order_and_unreadable
    (v : TriggerValue) (related : String) (es ee : Option PyDateTime)
    (ttz estz eetz : Option String) :
    (∀ dt, coerce_to_datetime v = some dt →
      build_reminder_payload v related es ee ttz estz eetz =
        .ok ⟨"absolute",
          some (isoformat (applyTz1 dt (pyOr ttz (timezone_from_datetime dt)))),
          none, none, pyOr ttz (timezone_from_datetime dt)⟩) ∧
    (coerce_to_datetime v = none → ∀ d, coerce_to_timedelta v = some d →
      ∃ p, build_reminder_payload v related es ee ttz estz eetz = .ok p ∧
        p.mode = "relative" ∧ p.offset = some (timedelta_to_iso8601 d)) ∧
    (coerce_to_datetime v = none → coerce_to_timedelta v = none →
      ∀ raw, stringify_trigger v = some raw →
      build_reminder_payload v related es ee ttz estz eetz =
        .ok ⟨"absolute", some raw, none, none, ttz⟩) ∧
    ((∃ msg, build_reminder_payload v related es ee ttz estz eetz = .error msg) ↔
      v = .vNone) ∧
    (stringify_trigger v = none ↔ v = .vNone) := by
  refine ⟨?_, ?_, ?_, ?_, stringify_eq_none_iff v⟩
  · intro dt hdt
    unfold build_reminder_payload
    rw [hdt]
  · intro hcd d hctd
    unfold build_reminder_payload
    rw [hcd, hctd]
    exact ⟨_, rfl, rfl, rfl⟩
  · intro hcd hctd raw hsr
    unfold build_reminder_payload
    rw [hcd, hctd, hsr]
  · constructor
    · rintro ⟨msg, he⟩
      rcases h1 : coerce_to_datetime v with - | dt
      · rcases h2 : coerce_to_timedelta v with - | d
        · rcases h3 : stringify_trigger v with - | raw
          · exact (stringify_eq_none_iff v).mp h3
          · unfold build_reminder_payload at he
            rw [h1, h2, h3] at he
            simp at he
        · unfold build_reminder_payload at he
          rw [h1, h2] at he
          simp at he
      · unfold build_reminder_payload at he
        rw [h1] at he
        simp at he
    · rintro rfl
      exact ⟨_, rfl⟩

/-- The C4 statement instantiated at concrete inputs: a duration trigger of
ninety minutes decodes through the second interpretation, a plain string
trigger that parses as neither timestamp nor duration falls through to the
verbatim fallback, and the `None` trigger is the one rejected input. -/
theorem trigger_decoder_order_and_unreadable_witness :
    (∃ p, build_reminder_payload (.vDelta 5400) "START" none none none none none =
      .ok p ∧ p.mode = "relative" ∧ p.offset = some (timedelta_to_iso8601 5400)) ∧
    build_reminder_payload (.vStr "every other tuesday") "START" none none
      (some "Europe/Paris") none none =
      .ok ⟨"absolute", some "every other tuesday", none, none, some "Europe/Paris"⟩ ∧
    (∃ msg, build_reminder_payload .vNone "START" none none none none none =
      .error msg) := by
  refine ⟨?_, ?_, ?_⟩
  · exact (trigger_decoder_order_and_unreadable (.vDelta 5400) "START"
      none none none none none).2.1 (by decide) 5400 (by decide)
  · exact (trigger_decoder_order_and_unreadable (.vStr "every other tuesday") "START"
      none none (some "Europe/Paris") none none).2.2.1 (by decide) (by decide)
      "every other tuesday" (by decide)
  · exact (trigger_decoder_order_and_unreadable .vNone "START"
      none none none none none).2.2.2.1.mpr rfl

/-- C9: every payload the trigger decoder returns satisfies the shape
invariant: `mode` is exactly "absolute" or "relative"; when the mode is
"relative" the `relation` field is exactly "START" or "END" (a RELATED
value outside these two is coerced to "START"); and when the mode is
"absolute" both `offset` and `relation` are null. -/
theorem decoder_payload_shape_invariant
    (v : TriggerValue) (related : String) (es ee : Option PyDateTime)
    (ttz estz eetz : Option String) (p : ReminderPayload)
    (hp : build_reminder_payload v related es ee ttz estz eetz = .ok p) :
    (p.mode = "absolute" ∨ p.mode = "relative") ∧
    (p.mode = "relative" →
      (p.relation = some "START" ∨ p.relation = some "END") ∧
      (if related = "START" ∨ related = "END" then p.relation = some related
       else p.relation = some "START")) ∧
    (p.mode = "absolute" → p.offset = none ∧ p.relation = none) := by
  unfold build_reminder_payload at hp
  rcases h1 : coerce_to_datetime v with - | dt
  · rw [h1] at hp
    dsimp only at hp
    rcases h2 : coerce_to_timedelta v with - | d
    · rw [h2] at hp
      dsimp only at hp
      rcases h3 : stringify_trigger v with - | raw
      · rw [h3] at hp
        simp at hp
      · rw [h3] at hp
        dsimp only at hp
        cases hp
        exact ⟨Or.inl rfl, fun hmode => by simp at hmode, fun _ => ⟨rfl, rfl⟩⟩
    · rw [h2] at hp
      dsimp only at hp
      cases hp
      refine ⟨Or.inr rfl, fun _ => ?_, fun hmode => by simp at hmode⟩
      constructor
      · by_cases hr : related = "START" ∨ related = "END"
        · rcases hr with rfl | rfl
          · exact Or.inl (by simp)
          · exact Or.inr (by simp)
        · exact Or.inl (by simp [hr])
      · by_cases hr : related = "START" ∨ related = "END"
        · rw [if_pos hr]
          simp [hr]
        · rw [if_neg hr]
          simp [hr]
  · rw [h1] at hp
    dsimp only at hp
    cases hp
    exact ⟨Or.inl rfl, fun hmode => by simp at hmode, fun _ => ⟨rfl, rfl⟩⟩

/-- The C9 statement instantiated at a vendor-specific RELATED value: the
decoded payload is relative with relation coerced to "START". -/
theorem decoder_payload_shape_invariant_witness :
    ((⟨"relative", none, some "PT1H30M", some "START", none⟩ : ReminderPayload).mode
        = "absolute" ∨
      (⟨"relative", none, some "PT1H30M", some "START", none⟩ : ReminderPayload).mode
        = "relative") ∧
    ((⟨"relative", none, some "PT1H30M", some "START", none⟩ : ReminderPayload).mode
        = "relative" →
      ((⟨"relative", none, some "PT1H30M", some "START", none⟩ : ReminderPayload).relation
          = some "START" ∨
        (⟨"relative", none, some "PT1H30M", some "START", none⟩ : ReminderPayload).relation
          = some "END") ∧
      (if ("X-VENDOR" : String) = "START" ∨ ("X-VENDOR" : String) = "END" then
        (⟨"relative", none, some "PT1H30M", some "START", none⟩ : ReminderPayload).relation
          = some "X-VENDOR"
       else
        (⟨"relative", none, some "PT1H30M", some "START", none⟩ : ReminderPayload).relation
          = some "START")) ∧
    ((⟨"relative", none, some "PT1H30M", some "START", none⟩ : ReminderPayload).mode
        = "absolute" →
      (⟨"relative", none, some "PT1H30M", some "START", none⟩ : ReminderPayload).offset
          = none ∧
        (⟨"relative", none, some "PT1H30M", some "START", none⟩ : ReminderPayload).relation
          = none) :=
  decoder_payload_shape_invariant (.vDelta 5400) "X-VENDOR" none none none none none
    ⟨"relative", none, some "PT1H30M", some "START", none⟩ (by decide)

/-- C10: `apply_timezone` never changes the wall-clock reading of its
input — every field other than `tzinfo` of the result equals that of the
input, resolving a zone for a naive timestamp only attaches the `tzinfo`,
and a `None` input yields `None`. -/
theorem apply_timezone_wallclock (tz : Option String) :
    apply_timezone none tz = none ∧
    ∀ dt : PyDateTime, ∃ dt2,
      apply_timezone (some dt) tz = some dt2 ∧
      dt2.year = dt.year ∧ dt2.month = dt.month ∧ dt2.day = dt.day ∧
      dt2.hour = dt.hour ∧ dt2.minute = dt.minute ∧ dt2.second = dt.second ∧
      dt2.micro = dt.micro ∧ dt2 = { dt with tz := dt2.tz } := by
  refine ⟨rfl, ?_⟩
  intro dt
  refine ⟨applyTz1 dt tz, rfl, ?_⟩
  rcases applyTz1_cases dt tz with h | ⟨z, h⟩ <;> rw [h] <;>
    exact ⟨rfl, rfl, rfl, rfl, rfl, rfl, rfl, rfl⟩

/-- Counterexample to C5 as stated: `iso8601_to_timedelta` accepts an empty
duration body (bare "P" and "PT" parse as the zero duration), and also
lowercase unit letters and surrounding whitespace, all of which the claim
says must fail with a parse error. -/
theorem duration_grammar_counterexample :
    iso8601_to_timedelta "P" = some 0 ∧ iso8601_to_timedelta "PT" = some 0 ∧
    iso8601_to_timedelta "pt1m" = some 60 ∧
    iso8601_to_timedelta " P1D " = some 86400 :=
  ⟨by decide, by decide, by decide, by decide⟩

/-- C5 (amended): the duration parser accepts exactly the signed pattern
`[-]P[nD][T[nH][nM][nS]]` with letters in either case and surrounding
whitespace stripped, INCLUDING the empty duration body (a bare `P` or `PT`,
which parses as the zero duration); it fails with a parse error on every
other input, in particular on fractional components, week designators and
the empty string. -/
theorem duration_parser_language :
    (∀ s : String, (iso8601_to_timedelta s).isSome = true ↔ DurationShape s) ∧
    iso8601_to_timedelta "P" = some 0 ∧
    iso8601_to_timedelta "PT" = some 0 ∧
    iso8601_to_timedelta "PT1.5S" = none ∧
    iso8601_to_timedelta "P1W" = none ∧
    iso8601_to_timedelta "" = none :=
  ⟨iso8601_isSome_iff, by decide, by decide, by decide, by decide, by decide⟩

/-- C6: formatting a whole-second signed duration and parsing the result is
the identity; the formatter emits `PT0S` for the zero duration and omits
zero-valued components otherwise (no `D`/`H`/`M`/`S` marker appears when
the corresponding component is zero and the duration is nonzero). -/
theorem duration_format_parse_roundtrip :
    (∀ n : Int, iso8601_to_timedelta (timedelta_to_iso8601 n) = some n) ∧
    timedelta_to_iso8601 0 = "PT0S" ∧
    (∀ n : Int, n ≠ 0 →
      (n.natAbs / 86400 = 0 → 'D' ∉ (timedelta_to_iso8601 n).data) ∧
      (n.natAbs % 86400 / 3600 = 0 → 'H' ∉ (timedelta_to_iso8601 n).data) ∧
      (n.natAbs % 86400 % 3600 / 60 = 0 → 'M' ∉ (timedelta_to_iso8601 n).data) ∧
      (n.natAbs % 86400 % 3600 % 60 = 0 → 'S' ∉ (timedelta_to_iso8601 n).data)) := by
  refine ⟨parse_fmt, by decide, ?_⟩
  intro n hn
  refine ⟨?_, ?_, ?_, ?_⟩
  · intro hz hmem
    exact fmtChars_chars n (fun c => c ≠ 'D')
      (fun c h => by rintro rfl; exact absurd h (by decide))
      (by decide) (by decide) (fun _ => by decide)
      (fun hne => absurd hz hne)
      (fun _ => by decide) (fun _ => by decide) (fun _ => by decide)
      'D' hmem rfl
  · intro hz hmem
    exact fmtChars_chars n (fun c => c ≠ 'H')
      (fun c h => by rintro rfl; exact absurd h (by decide))
      (by decide) (by decide) (fun _ => by decide)
      (fun _ => by decide)
      (fun hne => absurd hz hne)
      (fun _ => by decide) (fun _ => by decide)
      'H' hmem rfl
  · intro hz hmem
    exact fmtChars_chars n (fun c => c ≠ 'M')
      (fun c h => by rintro rfl; exact absurd h (by decide))
      (by decide) (by decide) (fun _ => by decide)
      (fun _ => by decide) (fun _ => by decide)
      (fun hne => absurd hz hne)
      (fun _ => by decide)
      'M' hmem rfl
  · intro hz hmem
    exact fmtChars_chars n (fun c => c ≠ 'S')
      (fun c h => by rintro rfl; exact absurd h (by decide))
      (by decide) (by decide) (fun _ => by decide)
      (fun _ => by decide) (fun _ => by decide) (fun _ => by decide)
      (fun hor => by
        rcases hor with hne | h0
        · exact absurd hz hne
        · exact absurd (by omega : n = 0) hn)
      'S' hmem rfl

/-- The C6 statement instantiated at minus ten minutes: the round trip
returns the duration and the formatted string omits the zero-valued day
and hour components. -/
theorem duration_format_parse_roundtrip_witness :
    iso8601_to_timedelta (timedelta_to_iso8601 (-600)) = some (-600) ∧
    'D' ∉ (timedelta_to_iso8601 (-600)).data ∧
    'H' ∉ (timedelta_to_iso8601 (-600)).data :=
  ⟨duration_format_parse_roundtrip.1 (-600),
    (duration_format_parse_roundtrip.2.2 (-600) (by decide)).1 (by decide),
    (duration_format_parse_roundtrip.2.2 (-600) (by decide)).2.1 (by decide)⟩

/-- Counterexample to C7 as stated: encoding the relative reminder with
offset "PT90M" and decoding the resulting trigger yields offset "PT1H30M" —
the same duration, but not the same offset string. -/
theorem relative_roundtrip_counterexample :
    reminder_to_ical_trigger
        ⟨"DISPLAY", "relative", some "PT90M", some "START", none, none, none⟩ =
      .ok (.vDelta 5400, some "START", none) ∧
    build_reminder_payload (.vDelta 5400) "START" none none none none none =
      .ok ⟨"relative", none, some "PT1H30M", some "START", none⟩ ∧
    ("PT1H30M" : String) ≠ "PT90M" :=
  ⟨by decide, by decide, by decide⟩

/-- C7 (amended): for every RELATIVE reminder whose `offset` is a parseable
signed duration string and whose `relation` is START or END (or absent,
defaulting to START), encoding it to a trigger and decoding that trigger
back yields a reminder with the same `relation` and an `offset` denoting
the same duration — the normalized rendering of the parsed input offset,
which equals the input string exactly when that string is already in
normalized form. -/
theorem relative_roundtrip_normalized
    (kind offset : String) (relation : Option String) (ft tzf desc : Option String)
    (delta : Int) (es ee : Option PyDateTime) (estz eetz : Option String)
    (hoff : iso8601_to_timedelta offset = some delta)
    (hrel : relation = none ∨ relation = some "START" ∨ relation = some "END") :
    ∃ rel,
      reminder_to_ical_trigger ⟨kind, "relative", some offset, relation, ft, tzf, desc⟩ =
        .ok (.vDelta delta, some rel, none) ∧
      rel = relation.getD "START" ∧
      ∃ p, build_reminder_payload (.vDelta delta) rel es ee none estz eetz = .ok p ∧
        p.mode = "relative" ∧ p.relation = some rel ∧
        p.offset = some (timedelta_to_iso8601 delta) ∧
        iso8601_to_timedelta (timedelta_to_iso8601 delta) = some delta ∧
        (timedelta_to_iso8601 delta = offset → p.offset = some offset) := by
  have hne : offset ≠ "" := by
    rintro rfl
    have h0 : iso8601_to_timedelta "" = none := by decide
    rw [h0] at hoff
    exact Option.noConfusion hoff
  rcases hrel with rfl | rfl | rfl
  · refine ⟨"START", ?_, rfl, ?_⟩
    · unfold reminder_to_ical_trigger
      rw [if_pos rfl]
      dsimp only
      rw [if_neg hne, hoff]
    · refine ⟨_, rfl, rfl, ?_, rfl, parse_fmt delta, fun he => by rw [he]⟩
      simp
  · refine ⟨"START", ?_, rfl, ?_⟩
    · unfold reminder_to_ical_trigger
      rw [if_pos rfl]
      dsimp only
      rw [if_neg hne, hoff]
      dsimp only
      rw [if_pos (Or.inl rfl)]
    · refine ⟨_, rfl, rfl, ?_, rfl, parse_fmt delta, fun he => by rw [he]⟩
      simp
  · refine ⟨"END", ?_, rfl, ?_⟩
    · unfold reminder_to_ical_trigger
      rw [if_pos rfl]
      dsimp only
      rw [if_neg hne, hoff]
      dsimp only
      rw [if_pos (Or.inr rfl)]
    · refine ⟨_, rfl, rfl, ?_, rfl, parse_fmt delta, fun he => by rw [he]⟩
      simp

/-- The C7 statement instantiated at offset "-PT10M" (already normalized)
with relation END: encode/decode preserves both exactly. -/
theorem relative_roundtrip_normalized_witness :
    ∃ rel,
      reminder_to_ical_trigger
          ⟨"DISPLAY", "relative", some "-PT10M", some "END", none, none, none⟩ =
        .ok (.vDelta (-600), some rel, none) ∧
      rel = (some "END" : Option String).getD "START" ∧
      ∃ p, build_reminder_payload (.vDelta (-600)) rel none none none none none = .ok p ∧
        p.mode = "relative" ∧ p.relation = some rel ∧
        p.offset = some (timedelta_to_iso8601 (-600)) ∧
        iso8601_to_timedelta (timedelta_to_iso8601 (-600)) = some (-600) ∧
        (timedelta_to_iso8601 (-600) = "-PT10M" → p.offset = some "-PT10M") :=
  relative_roundtrip_normalized "DISPLAY" "-PT10M" (some "END") none none none
    (-600) none none none none (by decide) (Or.inr (Or.inr rfl))

/-- C8: on an event starting at the naive timestamp 2025-04-21T14:00:00
with start timezone Europe/Paris, decoding a trigger with offset `-PT10M`
and relation START produces `fire_time` 2025-04-21T13:50:00+02:00; in
general, in the relative branch, the decoded convenience `fire_time` is the
zoned reference timestamp plus the offset, and is null when the reference
timestamp is null. -/
theorem relative_fire_time_scenario :
    (build_reminder_payload (.vDelta (-600)) "START"
        (some ⟨2025, 4, 21, 14, 0, 0, 0, none⟩) none none (some "Europe/Paris") none =
      .ok ⟨"relative", some "2025-04-21T13:50:00+02:00", some "-PT10M",
        some "START", some "Europe/Paris"⟩) ∧
    ∀ (v : TriggerValue) (related : String) (es ee : Option PyDateTime)
      (ttz estz eetz : Option String) (delta : Int) (p : ReminderPayload),
      coerce_to_datetime v = none → coerce_to_timedelta v = some delta →
      build_reminder_payload v related es ee ttz estz eetz = .ok p →
      ((if (if related = "START" ∨ related = "END" then related else "START") ≠ "END"
          then es else ee) = none → p.fire_time = none) ∧
      (∀ r, (if (if related = "START" ∨ related = "END" then related else "START") ≠ "END"
          then es else ee) = some r →
        p.fire_time = some (isoformat (addSeconds
          (applyTz1 r
            (if (if related = "START" ∨ related = "END" then related else "START") ≠ "END"
             then estz else eetz)) delta))) := by
  refine ⟨by decide, ?_⟩
  intro v related es ee ttz estz eetz delta p hcd hctd hp
  unfold build_reminder_payload at hp
  rw [hcd, hctd] at hp
  dsimp only at hp
  cases hp
  constructor
  · intro href
    show Option.map _ (Option.map _
      (if (if related = "START" ∨ related = "END" then related else "START") ≠ "END"
       then es else ee)) = none
    rw [href]
    rfl
  · intro r hr
    show Option.map _ (Option.map _
      (if (if related = "START" ∨ related = "END" then related else "START") ≠ "END"
       then es else ee)) = _
    rw [hr]
    rfl

/-- The C8 statement instantiated at the specification's scenario: the
decoded `fire_time` is the zoned 2025-04-21T14:00 Paris start plus the
minus-ten-minutes offset. -/
theorem relative_fire_time_scenario_witness :
    (⟨"relative", some "2025-04-21T13:50:00+02:00", some "-PT10M", some "START",
        some "Europe/Paris"⟩ : ReminderPayload).fire_time =
      some (isoformat (addSeconds
        (applyTz1 ⟨2025, 4, 21, 14, 0, 0, 0, none⟩ (some "Europe/Paris")) (-600))) :=
  (relative_fire_time_scenario.2 (.vDelta (-600)) "START"
      (some ⟨2025, 4, 21, 14, 0, 0, 0, none⟩) none none (some "Europe/Paris") none
      (-600)
      ⟨"relative", some "2025-04-21T13:50:00+02:00", some "-PT10M", some "START",
        some "Europe/Paris"⟩
      (by decide) (by decide) (by decide)).2
    ⟨2025, 4, 21, 14, 0, 0, 0, none⟩ (by decide)

/-- C1: when the caller supplies a client ETag that differs from the
server's current ETag, the update call does not mutate the remote resource
and fails with PreconditionFailed (HTTP 412) whose payload is the
authoritative current server state including its current ETag, recording a
single conflict audit entry. -/
theorem update_conflict_rejects_stale {π : Type} (resource uid : String)
    (cur : ResourceState π) (e : String) (p : π) (netag : String)
    (hne : e ≠ cur.etag) :
    update_call resource uid (some cur) (some e) p netag =
      (.preconditionFailed cur, some cur,
        [⟨resource, uid, "conflict", some cur, some p⟩]) := by
  unfold update_call
  dsimp only
  rw [if_neg hne]
  rfl

/-- The C1 statement instantiated at the specification's scenario: client A
holds ETag "1", client B has moved contact C to ETag "2"; A's stale update
is rejected with the conflict payload carrying ETag "2" and B's content. -/
theorem update_conflict_rejects_stale_witness :
    update_call "contact" "C" (some (⟨"full_name=B", "2"⟩ : ResourceState String))
        (some "1") "full_name=A-stale" "3" =
      (.preconditionFailed ⟨"full_name=B", "2"⟩, some ⟨"full_name=B", "2"⟩,
        [⟨"contact", "C", "conflict", some ⟨"full_name=B", "2"⟩,
          some "full_name=A-stale"⟩]) :=
  update_conflict_rejects_stale "contact" "C" ⟨"full_name=B", "2"⟩ "1"
    "full_name=A-stale" "3" (by decide)

/-- C2: every update/delete call records exactly one audit entry; that
entry has action "conflict" exactly when the call failed on a precondition
(ETag) mismatch, and on conflict its `before` is the authoritative server
state and its `after` is the rejected client payload (none for delete). -/
theorem audit_one_entry_conflict_iff {π : Type} (resource uid : String)
    (server : Option (ResourceState π)) (ce : Option String) (p : π) (netag : String) :
    (update_call resource uid server ce p netag).2.2.length = 1 ∧
    (delete_call resource uid server ce).2.2.length = 1 ∧
    (∀ entry ∈ (update_call resource uid server ce p netag).2.2,
      (entry.action = "conflict" ↔
        ∃ cur e, server = some cur ∧ ce = some e ∧ e ≠ cur.etag)) ∧
    (∀ entry ∈ (delete_call resource uid server ce).2.2,
      (entry.action = "conflict" ↔
        ∃ cur e, server = some cur ∧ ce = some e ∧ e ≠ cur.etag)) ∧
    (∀ cur e, server = some cur → ce = some e → e ≠ cur.etag →
      (update_call resource uid server ce p netag).2.2 =
        [⟨resource, uid, "conflict", some cur, some p⟩] ∧
      (delete_call resource uid server ce).2.2 =
        [⟨resource, uid, "conflict", some cur, none⟩]) := by
  unfold update_call delete_call
  rcases server with - | cur
  · dsimp only
    simp only [record_change, List.nil_append]
    refine ⟨rfl, rfl, ?_, ?_, ?_⟩
    · intro entry he
      rw [List.mem_singleton] at he
      subst he
      simp
    · intro entry he
      rw [List.mem_singleton] at he
      subst he
      simp
    · intro cur e hc
      exact absurd hc (by simp)
  · rcases ce with - | e
    · dsimp only
      simp only [record_change, List.nil_append]
      refine ⟨rfl, rfl, ?_, ?_, ?_⟩
      · intro entry he
        rw [List.mem_singleton] at he
        subst he
        simp
      · intro entry he
        rw [List.mem_singleton] at he
        subst he
        simp
      · intro cur2 e2 hc hce
        exact absurd hce (by simp)
    · dsimp only
      by_cases he : e = cur.etag
      · rw [if_pos he, if_pos he]
        simp only [record_change, List.nil_append]
        refine ⟨rfl, rfl, ?_, ?_, ?_⟩
        · intro entry hm
          rw [List.mem_singleton] at hm
          subst hm
          simp [he]
        · intro entry hm
          rw [List.mem_singleton] at hm
          subst hm
          simp [he]
        · intro cur2 e2 hc2 hce2 hne2
          injection hc2 with hc2
          injection hce2 with hce2
          subst hc2
          subst hce2
          exact absurd he hne2
      · rw [if_neg he, if_neg he]
        simp only [record_change, List.nil_append]
        refine ⟨rfl, rfl, ?_, ?_, ?_⟩
        · intro entry hm
          rw [List.mem_singleton] at hm
          subst hm
          constructor
          · intro _
            exact ⟨cur, e, rfl, rfl, he⟩
          · intro _
            rfl
        · intro entry hm
          rw [List.mem_singleton] at hm
          subst hm
          constructor
          · intro _
            exact ⟨cur, e, rfl, rfl, he⟩
          · intro _
            rfl
        · intro cur2 e2 hc2 hce2 hne2
          injection hc2 with hc2
          injection hce2 with hce2
          subst hc2
          subst hce2
          exact ⟨rfl, rfl⟩

/-- The C2 statement instantiated concretely: a matching-ETag update of an
event records one "update" entry, and a stale-ETag update records exactly
the single conflict entry whose `before` carries the server state with its
ETag and whose `after` is the rejected payload. -/
theorem audit_one_entry_conflict_iff_witness :
    (update_call "event" "E" (some (⟨"v1", "10"⟩ : ResourceState String))
        (some "10") "v2" "11").2.2.length = 1 ∧
    (update_call "event" "E" (some (⟨"v1", "10"⟩ : ResourceState String))
        (some "9") "v2" "11").2.2 =
      [⟨"event", "E", "conflict", some ⟨"v1", "10"⟩, some "v2"⟩] :=
  ⟨(audit_one_entry_conflict_iff "event" "E" (some ⟨"v1", "10"⟩)
      (some "10") "v2" "11").1,
    ((audit_one_entry_conflict_iff "event" "E" (some ⟨"v1", "10"⟩)
        (some "9") "v2" "11").2.2.2.2 ⟨"v1", "10"⟩ "9" rfl rfl (by decide)).1⟩

/-- C3: deleting a nonexistent resource is an idempotent no-op success —
the coordinator's delete of a missing UID returns "was not present" and
leaves the (absent) state unchanged, doing it twice gives the same result;
the source's `delete_event` likewise answers `false` without an error for a
missing UID, while only update treats NotFound as a terminal failure (the
coordinator's NotFound outcome, and the `ValueError` of the source's
existence check in `update_event`). -/
theorem delete_nonexistent_idempotent {π ε : Type} (resource uid : String)
    (ce ce2 : Option String) (p : π) (netag : String)
    (server : String → Option ε) (u : String)
    (hu : u ≠ "") (hmiss : server u = none) :
    (@delete_call π resource uid none ce).1 = .notPresent ∧
    (@delete_call π resource uid none ce).2.1 = none ∧
    (@delete_call π resource uid (@delete_call π resource uid none ce).2.1 ce2).1 =
      .notPresent ∧
    (update_call resource uid none ce p netag).1 = .notFound ∧
    delete_event server u = .ok (false, server) ∧
    (∃ msg, update_event_fetch server u = .error msg) := by
  refine ⟨rfl, rfl, rfl, rfl, ?_, ?_⟩
  · unfold delete_event
    rw [if_neg hu, hmiss]
  · unfold update_event_fetch
    rw [if_neg hu, hmiss]
    exact ⟨_, rfl⟩

/-- The C3 statement instantiated concretely for a UID absent from the
server. -/
theorem delete_nonexistent_idempotent_witness :
    (@delete_call String "event" "evt-1" none (some "1")).1 = .notPresent ∧
    (@delete_call String "event" "evt-1" none (some "1")).2.1 = none ∧
    (@delete_call String "event" "evt-1"
        (@delete_call String "event" "evt-1" none (some "1")).2.1 none).1 =
      .notPresent ∧
    (update_call "event" "evt-1" (none : Option (ResourceState String))
        (some "1") "payload" "2").1 = .notFound ∧
    delete_event (fun _ => (none : Option String)) "evt-1" =
      .ok (false, fun _ => (none : Option String)) ∧
    (∃ msg, update_event_fetch (fun _ => (none : Option String)) "evt-1" =
      .error msg) :=
  delete_nonexistent_idempotent "event" "evt-1" (some "1") none "payload" "2"
    (fun _ => none) "evt-1" (by decide) rfl


end SabreNx
